import Mathlib

/-!
# Verification of the poly2block voxelization core

A shallow embedding of the poly2block Go library (`core` package) in Lean 4,
together with theorems settling the specification claims about it.

Conventions of the embedding:
* Go `float64` values are modelled as exact rationals (`ℚ`); `int` as `ℤ`;
  `uint8` as `Fin 256`.
* Go maps are modelled either as association lists in insertion order
  (`VoxMap`) or, for the dithering error buffer whose absent keys read as the
  zero value, as total functions with default zero.
* Calls into the external `go-colorful` library (`RGBToLAB`, `DeltaE`) are
  modelled as function parameters (`toLab`, `d`): the theorems hold for every
  choice of these functions unless stated otherwise.

The file is laid out with all definitions first, followed by all theorems.
-/

set_option autoImplicit false

namespace Poly2Block

/-! ## Definitions: basic value types -/

/-- 8-bit channel value, the carrier of Go `uint8`. -/
abbrev Chan := Fin 256

/-- An RGB triple, Go `[3]uint8`. -/
abbrev RGB := Chan × Chan × Chan

/-- CIELAB color, Go `LABColor` (three `float64` fields). -/
structure LABColor where
  l : ℚ
  a : ℚ
  b : ℚ
deriving DecidableEq, Repr

/-- A 3-vector of `float64`, Go `[3]float64`. -/
structure Vec3 where
  x : ℚ
  y : ℚ
  z : ℚ
deriving DecidableEq, Repr

/-- Integer grid coordinate triple, Go `[3]int`. -/
abbrev Pos := ℤ × ℤ × ℤ

/-- A voxel: position plus color, Go `core.Voxel`. -/
structure Voxel where
  x : ℤ
  y : ℤ
  z : ℤ
  color : RGB
deriving DecidableEq, Repr

/-! ## Definitions: sparse voxel map and grid -/

/-- The sparse voxel mapping, Go `map[[3]int]*Voxel`, as an association list
with distinct keys (insertion order retained). -/
abbrev VoxMap := List (Pos × Voxel)

/-- Map lookup, Go `vg.Voxels[pos]`. -/
def VoxMap.lookup : VoxMap → Pos → Option Voxel
  | [], _ => none
  | (q, w) :: rest, p => if q = p then some w else VoxMap.lookup rest p

/-- Map insertion, Go `vg.Voxels[pos] = voxel`: replaces the binding in place
when the key is present, appends otherwise. -/
def VoxMap.insert : VoxMap → Pos → Voxel → VoxMap
  | [], p, v => [(p, v)]
  | (q, w) :: rest, p, v =>
    if q = p then (p, v) :: rest else (q, w) :: VoxMap.insert rest p v

/-- The voxel grid, Go `core.VoxelGrid`. -/
structure VoxelGrid where
  sizeX : ℤ
  sizeY : ℤ
  sizeZ : ℤ
  voxels : VoxMap
  scale : ℚ
  origin : Vec3
deriving DecidableEq, Repr

/-- Go `core.NewVoxelGrid`: empty map, scale 1, zero origin (Go zero value). -/
def NewVoxelGrid (sx sy sz : ℤ) : VoxelGrid :=
  { sizeX := sx, sizeY := sy, sizeZ := sz, voxels := [], scale := 1,
    origin := ⟨0, 0, 0⟩ }

/-- The bounds test inlined in Go `VoxelGrid.SetVoxel`. -/
def VoxelGrid.inBounds (vg : VoxelGrid) (x y z : ℤ) : Bool :=
  0 ≤ x && x < vg.sizeX && 0 ≤ y && y < vg.sizeY && 0 ≤ z && z < vg.sizeZ

/-- Go `VoxelGrid.SetVoxel`: inserts only when within bounds, silently drops
the write otherwise. -/
def VoxelGrid.SetVoxel (vg : VoxelGrid) (x y z : ℤ) (c : RGB) : VoxelGrid :=
  if vg.inBounds x y z then
    { vg with voxels := vg.voxels.insert (x, y, z) ⟨x, y, z, c⟩ }
  else vg

/-- Go `VoxelGrid.GetVoxel`. -/
def VoxelGrid.GetVoxel (vg : VoxelGrid) (x y z : ℤ) : Option Voxel :=
  vg.voxels.lookup (x, y, z)

/-- Go `VoxelGrid.HasVoxel`. -/
def VoxelGrid.HasVoxel (vg : VoxelGrid) (x y z : ℤ) : Bool :=
  (vg.GetVoxel x y z).isSome

/-- Go `VoxelGrid.Count`: number of entries of the sparse map. -/
def VoxelGrid.Count (vg : VoxelGrid) : ℕ :=
  vg.voxels.length

/-! ## Definitions: palette and color matcher -/

/-- A palette entry, Go `core.PaletteColor`.  The free-form `Metadata` map is
modelled by its only consulted key: `blockId` is `some s` exactly when
`Metadata["block_id"]` holds the string `s`. -/
structure PaletteColor where
  name : String
  rgb : RGB
  lab : LABColor
  blockId : Option String
deriving DecidableEq, Repr

/-- A palette, Go `core.Palette`: an ordered list of colors. -/
structure Palette where
  colors : List PaletteColor
deriving DecidableEq, Repr

/-- The largest finite `float64`, the initial `bestDistance` in Go
`CIELABMatcher.Match` (`math.MaxFloat64`). -/
def maxFloat64 : ℚ := (2 ^ 53 - 1) * 2 ^ 971

/-- The scan loop of Go `CIELABMatcher.Match`: `best`/`bestD` are the running
`bestMatch`/`bestDistance`, updated exactly when the next distance is
strictly smaller. -/
def matchAux (f : PaletteColor → ℚ) (best : Option PaletteColor) (bestD : ℚ) :
    List PaletteColor → Option PaletteColor
  | [] => best
  | c :: rest =>
    if f c < bestD then matchAux f (some c) (f c) rest
    else matchAux f best bestD rest

/-- Go `CIELABMatcher.Match`, parameterized by the external go-colorful
conversions: `d` models `DeltaE` (CIEDE2000) and `toLab` models `RGBToLAB`.
A `none` palette models a nil palette pointer. -/
def CIELABMatcher.Match (d : LABColor → LABColor → ℚ) (toLab : RGB → LABColor)
    (palette : Option Palette) (rgb : RGB) : Option PaletteColor :=
  match palette with
  | none => none
  | some p =>
    if p.colors.isEmpty then none
    else matchAux (fun c => d (toLab rgb) c.lab) none maxFloat64 p.colors

/-- Example distance function used by concrete witnesses: squared difference
of the `l` components. -/
def dEx (t c : LABColor) : ℚ := (t.l - c.l) * (t.l - c.l)

/-- Example `toLab` function used by concrete witnesses. -/
def toLabEx (rgb : RGB) : LABColor := ⟨(rgb.1 : ℚ), (rgb.2.1 : ℚ), (rgb.2.2 : ℚ)⟩

/-- Concrete palette entry used by witnesses. -/
def pcBlack : PaletteColor :=
  { name := "black", rgb := (0, 0, 0), lab := ⟨0, 0, 0⟩,
    blockId := some "minecraft:black_concrete" }

/-- Concrete palette entry used by witnesses. -/
def pcWhite : PaletteColor :=
  { name := "white", rgb := (255, 255, 255), lab := ⟨100, 0, 0⟩,
    blockId := some "minecraft:white_concrete" }

/-- Concrete two-entry palette used by witnesses. -/
def palEx : Palette := { colors := [pcBlack, pcWhite] }

/-! ## Definitions: mesh and voxelizer -/

/-- Go helper `sub3`. -/
def sub3 (a b : Vec3) : Vec3 := ⟨a.x - b.x, a.y - b.y, a.z - b.z⟩

/-- Go helper `cross3`. -/
def cross3 (a b : Vec3) : Vec3 :=
  ⟨a.y * b.z - a.z * b.y, a.z * b.x - a.x * b.z, a.x * b.y - a.y * b.x⟩

/-- Go helper `dot3`. -/
def dot3 (a b : Vec3) : ℚ := a.x * b.x + a.y * b.y + a.z * b.z

/-- The `sign` closure of Go `SurfaceVoxelizer.pointInTriangle2D`. -/
def sign2D (p1 p2 p3 : Vec3) : ℚ :=
  (p1.x - p3.x) * (p2.y - p3.y) - (p2.x - p3.x) * (p1.y - p3.y)

/-- Go `SurfaceVoxelizer.pointInTriangle2D`: XY-projection half-plane test. -/
def pointInTriangle2D (p v0 v1 v2 : Vec3) : Bool :=
  let d1 := sign2D p v0 v1
  let d2 := sign2D p v1 v2
  let d3 := sign2D p v2 v0
  let hasNeg := decide (d1 < 0) || decide (d2 < 0) || decide (d3 < 0)
  let hasPos := decide (d1 > 0) || decide (d2 > 0) || decide (d3 > 0)
  !(hasNeg && hasPos)

/-- Go `SurfaceVoxelizer.voxelIntersectsTriangle`.  The Go literal `0.866` is
modelled by the rational 433/500; `threshold *= 1.5` by multiplication with
3/2.  Note the plane test compares `|normal·voxel − normal·v0|` with the
threshold *without* normalizing `normal` (the cross product of the edge
vectors). -/
def voxelIntersectsTriangle (voxel v0 v1 v2 : Vec3) (conservative : Bool) : Bool :=
  let edge1 := sub3 v1 v0
  let edge2 := sub3 v2 v0
  let normal := cross3 edge1 edge2
  let d := dot3 normal v0
  let dist := |dot3 normal voxel - d|
  let threshold : ℚ := if conservative then (433 / 500) * (3 / 2) else 433 / 500
  if dist > threshold then false
  else pointInTriangle2D voxel v0 v1 v2

/-- Go `core.Material`; only the fields the voxelizer consults are kept. -/
structure Material where
  name : String
  diffuseColor : Vec3
deriving DecidableEq, Repr

/-- Go `core.Face`; only the fields the voxelizer consults are kept. -/
structure Face where
  vertexIndices : List ℕ
  materialIndex : ℤ
deriving DecidableEq, Repr

/-- Go `core.BoundingBox`. -/
structure BoundingBox where
  min : Vec3
  max : Vec3
deriving DecidableEq, Repr

/-- Go `core.Mesh`; a vertex is represented by its `Position` (the only
vertex field the voxelizer consults). -/
structure Mesh where
  vertices : List Vec3
  faces : List Face
  materials : List Material
  bounds : BoundingBox
deriving DecidableEq, Repr

/-- The all-zero vector, Go `[3]float64{}`. -/
def zeroVec : Vec3 := ⟨0, 0, 0⟩

/-- Go `Mesh.CalculateBounds`: fold of component-wise min/max over the
vertices, starting from the first vertex; no-op on an empty mesh. -/
def calculateBounds (m : Mesh) : Mesh :=
  match m.vertices with
  | [] => m
  | v :: rest =>
    let b := rest.foldl
      (fun (b : BoundingBox) (p : Vec3) =>
        ⟨⟨min b.min.x p.x, min b.min.y p.y, min b.min.z p.z⟩,
         ⟨max b.max.x p.x, max b.max.y p.y, max b.max.z p.z⟩⟩)
      ⟨v, v⟩
    { m with bounds := b }

/-- The mesh with bounds as Go `Voxelize` sees them: recomputed exactly when
both stored corners are the zero value. -/
def effectiveMesh (m : Mesh) : Mesh :=
  if m.bounds.min = zeroVec ∧ m.bounds.max = zeroVec then calculateBounds m else m

/-- The per-axis extents `dims` of Go `Voxelize`. -/
def dimsOf (m : Mesh) : Vec3 :=
  ⟨m.bounds.max.x - m.bounds.min.x, m.bounds.max.y - m.bounds.min.y,
   m.bounds.max.z - m.bounds.min.z⟩

/-- `maxDim` of Go `Voxelize`: the longest bounding-box extent. -/
def maxDimOf (m : Mesh) : ℚ :=
  max (dimsOf m).x (max (dimsOf m).y (dimsOf m).z)

/-- Go `core.VoxelizationConfig`. -/
structure VoxelizationConfig where
  resolution : ℤ
  scale : ℚ
  conservative : Bool
deriving DecidableEq, Repr

/-- Go's `uint8(q)` conversion for a `float64` expected in [0,256):
truncation toward zero of a nonnegative value, wrapped into `Fin 256`. -/
def chanOfFloat (q : ℚ) : Chan := ⟨q.floor.toNat % 256, Nat.mod_lt _ (by norm_num)⟩

/-- The face-color selection of Go `Voxelize`: the material's diffuse color
scaled by 255, or mid-gray when the material index is out of range. -/
def faceColor (m : Mesh) (face : Face) : RGB :=
  if 0 ≤ face.materialIndex ∧ face.materialIndex < (m.materials.length : ℤ) then
    let mat := m.materials.getD face.materialIndex.toNat ⟨"", zeroVec⟩
    (chanOfFloat (mat.diffuseColor.x * 255), chanOfFloat (mat.diffuseColor.y * 255),
      chanOfFloat (mat.diffuseColor.z * 255))
  else (128, 128, 128)

/-- Go `SurfaceVoxelizer.worldToVoxel`. -/
def worldToVoxel (world : Vec3) (origin : Vec3) (scale : ℚ) : Vec3 :=
  ⟨(world.x - origin.x) * scale, (world.y - origin.y) * scale,
   (world.z - origin.z) * scale⟩

/-- The integers `lo, lo+1, …, hi` (empty when `hi < lo`), the index range of
a Go `for i := lo; i <= hi; i++` loop. -/
def intRange (lo hi : ℤ) : List ℤ :=
  (List.range (hi + 1 - lo).toNat).map (fun i => lo + (i : ℤ))

/-- Go `SurfaceVoxelizer.rasterizeTriangle`: scan the clamped voxel-space
bounding box of the triangle and set every cell whose center passes
`voxelIntersectsTriangle`. -/
def rasterizeTriangle (grid : VoxelGrid) (v0 v1 v2 : Vec3) (color : RGB)
    (conservative : Bool) : VoxelGrid :=
  let v0v := worldToVoxel v0 grid.origin grid.scale
  let v1v := worldToVoxel v1 grid.origin grid.scale
  let v2v := worldToVoxel v2 grid.origin grid.scale
  let minX := max 0 (min v0v.x (min v1v.x v2v.x)).floor
  let maxX := min (grid.sizeX - 1) (max v0v.x (max v1v.x v2v.x)).ceil
  let minY := max 0 (min v0v.y (min v1v.y v2v.y)).floor
  let maxY := min (grid.sizeY - 1) (max v0v.y (max v1v.y v2v.y)).ceil
  let minZ := max 0 (min v0v.z (min v1v.z v2v.z)).floor
  let maxZ := min (grid.sizeZ - 1) (max v0v.z (max v1v.z v2v.z)).ceil
  (intRange minX maxX).foldl
    (fun (g : VoxelGrid) (x : ℤ) =>
      (intRange minY maxY).foldl
        (fun (g : VoxelGrid) (y : ℤ) =>
          (intRange minZ maxZ).foldl
            (fun (g : VoxelGrid) (z : ℤ) =>
              let center : Vec3 := ⟨(x : ℚ) + 1/2, (y : ℚ) + 1/2, (z : ℚ) + 1/2⟩
              if voxelIntersectsTriangle center v0v v1v v2v conservative then
                g.SetVoxel x y z color
              else g)
            g)
        g)
    grid

/-- The successful branch of Go `SurfaceVoxelizer.Voxelize`: scale and grid
sizes from the effective bounds, then one `rasterizeTriangle` per face with
at least 3 vertex indices.  Face vertex indices are read with a zero default
(`getD`); the Go code assumes pre-validated indices and would panic on
out-of-range ones. -/
def voxelizeGrid (mesh : Mesh) (config : VoxelizationConfig) : VoxelGrid :=
  let m := effectiveMesh mesh
  let dims := dimsOf m
  let maxDim := maxDimOf m
  let scale := if config.scale > 0 then config.scale
               else (config.resolution : ℚ) / maxDim
  let sizeX := (dims.x * scale).ceil
  let sizeY := (dims.y * scale).ceil
  let sizeZ := (dims.z * scale).ceil
  let grid0 := { NewVoxelGrid sizeX sizeY sizeZ with
                  scale := scale, origin := m.bounds.min }
  m.faces.foldl
    (fun g face =>
      if face.vertexIndices.length < 3 then g
      else
        let p0 := m.vertices.getD (face.vertexIndices.getD 0 0) zeroVec
        let p1 := m.vertices.getD (face.vertexIndices.getD 1 0) zeroVec
        let p2 := m.vertices.getD (face.vertexIndices.getD 2 0) zeroVec
        rasterizeTriangle g p0 p1 p2 (faceColor m face) config.conservative)
    grid0

/-- Go `SurfaceVoxelizer.Voxelize`: the two precondition failures, then the
grid construction. -/
def Voxelize (mesh : Mesh) (config : VoxelizationConfig) : Except String VoxelGrid :=
  if mesh.vertices.isEmpty then Except.error "mesh has no vertices"
  else if maxDimOf (effectiveMesh mesh) = 0 then Except.error "mesh has zero size"
  else Except.ok (voxelizeGrid mesh config)

/-- C4's failing input: a sliver triangle whose edge cross product (the
unnormalized plane normal) has length 1/250·√2, in voxel space. -/
def tv0 : Vec3 := ⟨0, 1/2, 0⟩

/-- Second vertex of C4's failing triangle. -/
def tv1 : Vec3 := ⟨10, 4999/10000, 10⟩

/-- Third vertex of C4's failing triangle. -/
def tv2 : Vec3 := ⟨10, 5001/10000, 10⟩

/-- C4's failing voxel-cell center, the center of cell (0,0,9). -/
def cEx : Vec3 := ⟨1/2, 1/2, 19/2⟩

/-- C3's counterexample: a flat mesh (two vertices spanning a zero-thickness
box in z), zero stored bounds, no faces. -/
def meshFlat : Mesh :=
  { vertices := [⟨0, 0, 0⟩, ⟨1, 1, 0⟩], faces := [], materials := [],
    bounds := ⟨zeroVec, zeroVec⟩ }

/-- A point mesh: three identical vertices, zero stored bounds. -/
def meshPoint : Mesh :=
  { vertices := [⟨2, 3, 4⟩, ⟨2, 3, 4⟩, ⟨2, 3, 4⟩], faces := [], materials := [],
    bounds := ⟨zeroVec, zeroVec⟩ }

/-- An empty mesh. -/
def meshEmpty : Mesh :=
  { vertices := [], faces := [], materials := [], bounds := ⟨zeroVec, zeroVec⟩ }

/-- A plain voxelization configuration at resolution 10. -/
def cfg10 : VoxelizationConfig :=
  { resolution := 10, scale := 0, conservative := false }

/-! ## Definitions: pipeline, dithering and plain color matching -/

/-- Go `clampUint8`: clamp to [0,255], then Go's `uint8(v)` truncation. -/
def clampUint8 (v : ℚ) : Chan :=
  if v < 0 then 0 else if v > 255 then 255 else chanOfFloat v

/-- A per-channel floating-point error triple, Go `[3]float64`. -/
abbrev QErr := ℚ × ℚ × ℚ

/-- The componentwise `current[i] += error[i] * weight` of Go
`Pipeline.addError`. -/
def addScaled (cur e : QErr) (w : ℚ) : QErr :=
  (cur.1 + e.1 * w, cur.2.1 + e.2.1 * w, cur.2.2 + e.2.2 * w)

/-- The dithering error buffer, Go `map[[3]int][3]float64`: a Go map read
yields the zero value for an absent key, so the buffer is modelled as a
total function with default zero. -/
abbrev ErrBuffer := Pos → QErr

/-- The empty error buffer. -/
def zeroBuffer : ErrBuffer := fun _ => (0, 0, 0)

/-- Go `Pipeline.addError`. -/
def addError (buffer : ErrBuffer) (x y z : ℤ) (e : QErr) (weight : ℚ) : ErrBuffer :=
  fun p => if p = (x, y, z) then addScaled (buffer (x, y, z)) e weight else buffer p

/-- Go `Pipeline.distributeError`: Floyd–Steinberg weights for
`"floyd-steinberg"` or the empty name, and nothing at all otherwise. -/
def distributeError (buffer : ErrBuffer) (x y z : ℤ) (e : QErr)
    (algorithm : String) : ErrBuffer :=
  if algorithm = "floyd-steinberg" ∨ algorithm = "" then
    addError (addError (addError (addError buffer (x + 1) y z e (7/16))
      (x - 1) (y + 1) z e (3/16)) x (y + 1) z e (5/16)) (x + 1) (y + 1) z e (1/16)
  else buffer

/-- Go `CIELABMatcher.MatchWithDithering`: add the accumulated error, clamp,
match, and return the quantization error `adjusted − matched`. -/
def CIELABMatcher.MatchWithDithering (d : LABColor → LABColor → ℚ)
    (toLab : RGB → LABColor) (palette : Option Palette) (rgb : RGB) (err : QErr) :
    Option PaletteColor × QErr :=
  let adjusted : RGB :=
    (clampUint8 (((rgb.1 : ℕ) : ℚ) + err.1),
     clampUint8 (((rgb.2.1 : ℕ) : ℚ) + err.2.1),
     clampUint8 (((rgb.2.2 : ℕ) : ℚ) + err.2.2))
  match CIELABMatcher.Match d toLab palette adjusted with
  | none => (none, (0, 0, 0))
  | some m =>
    (some m,
      (((adjusted.1 : ℕ) : ℚ) - ((m.rgb.1 : ℕ) : ℚ),
       ((adjusted.2.1 : ℕ) : ℚ) - ((m.rgb.2.1 : ℕ) : ℚ),
       ((adjusted.2.2 : ℕ) : ℚ) - ((m.rgb.2.2 : ℕ) : ℚ)))

/-- The result grid both pipeline color stages start from: a fresh grid with
the input's sizes, scale and origin. -/
def freshGrid (vg : VoxelGrid) : VoxelGrid :=
  { NewVoxelGrid vg.sizeX vg.sizeY vg.sizeZ with scale := vg.scale, origin := vg.origin }

/-- Go `Pipeline.applyColorMatching`, parameterized by the matcher interface's
`Match`; iterates the sparse map's entries. -/
def applyColorMatching (matchFn : RGB → Option PaletteColor) (vg : VoxelGrid) :
    VoxelGrid :=
  vg.voxels.foldl
    (fun (result : VoxelGrid) (entry : Pos × Voxel) =>
      match matchFn entry.2.color with
      | some m => result.SetVoxel entry.1.1 entry.1.2.1 entry.1.2.2 m.rgb
      | none => result)
    (freshGrid vg)

/-- One iteration of the Go `Pipeline.applyDithering` loop body at position
`p`, acting on the (result grid, error buffer) state. -/
def ditherStep (mwd : RGB → QErr → Option PaletteColor × QErr) (alg : String)
    (vg : VoxelGrid) (s : VoxelGrid × ErrBuffer) (p : Pos) : VoxelGrid × ErrBuffer :=
  match vg.GetVoxel p.1 p.2.1 p.2.2 with
  | none => s
  | some voxel =>
    let r := mwd voxel.color (s.2 p)
    match r.1 with
    | none => s
    | some m =>
      (s.1.SetVoxel p.1 p.2.1 p.2.2 m.rgb,
       distributeError s.2 p.1 p.2.1 p.2.2 r.2 alg)

/-- Go `Pipeline.applyDithering`, parameterized by the matcher interface's
`MatchWithDithering`: nested loops, `z` outermost, then `y`, then `x`, all
ascending from 0. -/
def applyDithering (mwd : RGB → QErr → Option PaletteColor × QErr) (alg : String)
    (vg : VoxelGrid) : VoxelGrid :=
  ((List.range vg.sizeZ.toNat).foldl
    (fun (s : VoxelGrid × ErrBuffer) (zn : ℕ) =>
      (List.range vg.sizeY.toNat).foldl
        (fun (s : VoxelGrid × ErrBuffer) (yn : ℕ) =>
          (List.range vg.sizeX.toNat).foldl
            (fun (s : VoxelGrid × ErrBuffer) (xn : ℕ) =>
              ditherStep mwd alg vg s ((xn : ℤ), (yn : ℤ), (zn : ℤ)))
            s)
        s)
    (freshGrid vg, zeroBuffer)).1

/-- The raster enumeration of all cells of an `sx×sy×sz` grid in the loop
order of `applyDithering`: `z` outermost, then `y`, then `x`. -/
def rasterOrder (sx sy sz : ℤ) : List Pos :=
  (List.range sz.toNat).flatMap (fun (zn : ℕ) =>
    (List.range sy.toNat).flatMap (fun (yn : ℕ) =>
      (List.range sx.toNat).map (fun (xn : ℕ) => ((xn : ℤ), (yn : ℤ), (zn : ℤ)))))

/-- Strict raster precedence: earlier `z`, then earlier `y`, then earlier
`x`. -/
def rasterLt (p q : Pos) : Prop :=
  p.2.2 < q.2.2 ∨ (p.2.2 = q.2.2 ∧ (p.2.1 < q.2.1 ∨ (p.2.1 = q.2.1 ∧ p.1 < q.1)))

/-- The single-cell write that both color stages perform at a position: look
the input voxel up, match its color, and (bounds permitting) store the
matched color. -/
def plainWrite (mf : RGB → Option PaletteColor) (vg : VoxelGrid) (g : VoxelGrid)
    (p : Pos) : VoxelGrid :=
  match vg.voxels.lookup p with
  | none => g
  | some vox =>
    match mf vox.color with
    | none => g
    | some m => g.SetVoxel p.1 p.2.1 p.2.2 m.rgb

/-- The voxel a color stage stores at `p`, if any: input voxel present,
match found, position in bounds. -/
def writeVal (mf : RGB → Option PaletteColor) (vg : VoxelGrid) (p : Pos) :
    Option Voxel :=
  match vg.voxels.lookup p with
  | none => none
  | some vox =>
    match mf vox.color with
    | none => none
    | some m =>
      if vg.inBounds p.1 p.2.1 p.2.2 then some ⟨p.1, p.2.1, p.2.2, m.rgb⟩ else none

/-- Distinct keys, the Go-map invariant of the association-list model. -/
def VoxMap.keysNodup (m : VoxMap) : Prop := (m.map Prod.fst).Nodup

/-- Concrete 1×1×1 grid with one voxel, used by witnesses. -/
def vgEx : VoxelGrid := (NewVoxelGrid 1 1 1).SetVoxel 0 0 0 (10, 20, 30)

/-! ## Definitions: schematic export/import -/

/-- The flat schematic index of cell (x,y,z): `Y + Z·height + X·height·length`
with height = sizeY and length = sizeZ (Go `SchematicExporterImpl.Export` and
`SchematicImporterImpl.Import` use the same formula). -/
def schemIndex (sy sz x y z : ℤ) : ℤ := y + z * sy + x * sy * sz

/-- The block-id → palette-index map Go `Export` builds: air gets 0, then the
palette entries' block ids (default `minecraft:white_concrete`) get 1, 2, …
in first-seen order; without a palette only air and the default block. -/
def buildBlockPalette (palette : Option Palette) : List (String × ℤ) :=
  match palette with
  | some p =>
    (p.colors.foldl
      (fun (acc : List (String × ℤ) × ℤ) c =>
        let blockID := c.blockId.getD "minecraft:white_concrete"
        if (acc.1.map Prod.fst).contains blockID then acc
        else (acc.1 ++ [(blockID, acc.2)], acc.2 + 1))
      ([("minecraft:air", 0)], 1)).1
  | none => [("minecraft:air", 0), ("minecraft:white_concrete", 1)]

/-- The byte Go `Export` writes for a voxel of color `c` (`none` = no write):
1 without a palette; with one, the block-palette index of the matched color's
block id when the match succeeds and the id is in the map. -/
def exportCellValue (d : LABColor → LABColor → ℚ) (toLab : RGB → LABColor)
    (palette : Option Palette) (c : RGB) : Option ℤ :=
  match palette with
  | none => some 1
  | some _ =>
    match CIELABMatcher.Match d toLab palette c with
    | none => none
    | some matched =>
      match matched.blockId with
      | none => none
      | some id => (buildBlockPalette palette).lookup id

/-- The `BlockData` array Go `Export` builds: X·Y·Z zeros, then one write per
sparse-map entry at the entry's schematic index, computed from the stored
voxel's fields (Go `byte(idx)` wraps mod 256). -/
def buildBlockData (d : LABColor → LABColor → ℚ) (toLab : RGB → LABColor)
    (vg : VoxelGrid) (palette : Option Palette) : List ℤ :=
  vg.voxels.foldl
    (fun (data : List ℤ) (entry : Pos × Voxel) =>
      match exportCellValue d toLab palette entry.2.color with
      | some idx =>
        data.set (schemIndex vg.sizeY vg.sizeZ entry.2.x entry.2.y entry.2.z).toNat
          (idx % 256)
      | none => data)
    (List.replicate (vg.sizeX * vg.sizeY * vg.sizeZ).toNat 0)

/-- One conditional default-gray write of the Go schematic importer. -/
def condWrite (cond : Pos → Bool) (c : RGB) (g : VoxelGrid) (p : Pos) : VoxelGrid :=
  if cond p then g.SetVoxel p.1 p.2.1 p.2.2 c else g

/-- Whether the Go importer places a block at a coordinate: the stored index
is positive and its reverse-palette block id exists and is not air. -/
def importsCell (height length : ℤ) (blockData : List ℤ)
    (revPalette : ℤ → Option String) (p : Pos) : Bool :=
  let bi := blockData.getD (schemIndex height length p.1 p.2.1 p.2.2).toNat 0
  decide (0 < bi) &&
    (match revPalette bi with
     | some id => decide (id ≠ "minecraft:air")
     | none => false)

/-- The Go importer's scan order: `y` outermost, then `z`, then `x`. -/
def importOrder (width height length : ℤ) : List Pos :=
  (List.range height.toNat).flatMap (fun (yn : ℕ) =>
    (List.range length.toNat).flatMap (fun (zn : ℕ) =>
      (List.range width.toNat).map (fun (xn : ℕ) => ((xn : ℤ), (yn : ℤ), (zn : ℤ)))))

/-- Go `SchematicImporterImpl.Import` after NBT decoding: walk the flat array
back into 3D coordinates with the same index formula and set a default gray
voxel wherever a positive, non-air index is stored. -/
def importFromBlockData (width height length : ℤ) (blockData : List ℤ)
    (revPalette : ℤ → Option String) : VoxelGrid :=
  (List.range height.toNat).foldl
    (fun (g : VoxelGrid) (yn : ℕ) =>
      (List.range length.toNat).foldl
        (fun (g : VoxelGrid) (zn : ℕ) =>
          (List.range width.toNat).foldl
            (fun (g : VoxelGrid) (xn : ℕ) =>
              condWrite (importsCell height length blockData revPalette)
                (128, 128, 128) g ((xn : ℤ), (yn : ℤ), (zn : ℤ)))
            g)
        g)
    (NewVoxelGrid width height length)

/-! ## Definitions: VOX export palette -/

/-- Go `VOXExporterImpl.Export`'s palette loop: scan voxel colors, give each
unseen color the next `uint8` index (starting at 1), increment, and break when
the incremented index wraps to 0 (256 colors exhausted).  The wrap of the
`uint8` counter is `Fin 256` addition. -/
def buildVoxPaletteAux : List RGB → List (RGB × Fin 256) → Fin 256 → List (RGB × Fin 256)
  | [], acc, _ => acc
  | c :: rest, acc, idx =>
    if c ∈ acc.map Prod.fst then buildVoxPaletteAux rest acc idx
    else if idx + 1 = 0 then acc ++ [(c, idx)]
    else buildVoxPaletteAux rest (acc ++ [(c, idx)]) (idx + 1)

/-- The VOX palette built from the voxel colors in scan order (Go
`VOXExporterImpl.Export`, the `palette` map with `paletteIndex := 1`). -/
def buildVoxPalette (colors : List RGB) : List (RGB × Fin 256) :=
  buildVoxPaletteAux colors [] 1

/-- Spec-side: the distinct colors of a list in first-seen order
(`firstSeenAux seen l` drops the colors already in `seen`). -/
def firstSeenAux (seen : List RGB) : List RGB → List RGB
  | [] => []
  | c :: rest =>
    if c ∈ seen then firstSeenAux seen rest
    else c :: firstSeenAux (c :: seen) rest

/-- Spec-side: distinct colors in first-seen order. -/
def firstSeen (l : List RGB) : List RGB := firstSeenAux [] l

/-- Spec-side: pair a list of colors with consecutive indices starting at
`s`. -/
def assignFrom (s : ℕ) : List RGB → List (RGB × Fin 256)
  | [] => []
  | c :: rest => (c, (s : Fin 256)) :: assignFrom (s + 1) rest

/-- The default RGBA table Go `writeRGBAChunk` starts from: 256 entries of
(0,0,0,255), flattened to 1024 bytes. -/
def initRGBA : List (Fin 256) := (List.replicate 256 ([0, 0, 0, 255] : List (Fin 256))).flatten

/-- Go `writeRGBAChunk`: overwrite the 4 bytes at `index*4` with the palette
entry's color and alpha 255, for every palette entry. -/
def writeRGBAData (palette : List (RGB × Fin 256)) : List (Fin 256) :=
  palette.foldl
    (fun (data : List (Fin 256)) (entry : RGB × Fin 256) =>
      ((((data.set (entry.2.val * 4) entry.1.1).set
          (entry.2.val * 4 + 1) entry.1.2.1).set
          (entry.2.val * 4 + 2) entry.1.2.2).set
          (entry.2.val * 4 + 3) 255))
    initRGBA

/-! ## Theorems: sparse voxel map -/

@[simp] theorem VoxMap.lookup_nil (p : Pos) : VoxMap.lookup [] p = none := rfl

theorem VoxMap.lookup_insert_self (m : VoxMap) (p : Pos) (v : Voxel) :
    (m.insert p v).lookup p = some v := by
  induction m with
  | nil => simp [VoxMap.insert, VoxMap.lookup]
  | cons head rest ih =>
    obtain ⟨q, w⟩ := head
    by_cases h : q = p <;> simp [VoxMap.insert, VoxMap.lookup, h, ih]

theorem VoxMap.lookup_insert_ne (m : VoxMap) (p q : Pos) (v : Voxel) (h : q ≠ p) :
    (m.insert p v).lookup q = m.lookup q := by
  have hpq : ¬(p = q) := fun hh => h hh.symm
  induction m with
  | nil => simp [VoxMap.insert, VoxMap.lookup, hpq]
  | cons head rest ih =>
    obtain ⟨r, w⟩ := head
    by_cases hr : r = p
    · subst hr
      simp [VoxMap.insert, VoxMap.lookup, hpq]
    · simp only [VoxMap.insert, if_neg hr, VoxMap.lookup]
      by_cases hq : r = q
      · simp [hq]
      · simp [hq, ih]

/-- Keys of an insertion: the new key or an old one. -/
theorem VoxMap.lookup_insert_isSome (m : VoxMap) (p q : Pos) (v : Voxel) :
    ((m.insert p v).lookup q).isSome → q = p ∨ (m.lookup q).isSome := by
  intro h
  by_cases hq : q = p
  · exact Or.inl hq
  · right
    rwa [VoxMap.lookup_insert_ne m p q v hq] at h

@[simp] theorem SetVoxel_sizeX (vg : VoxelGrid) (x y z : ℤ) (c : RGB) :
    (vg.SetVoxel x y z c).sizeX = vg.sizeX := by
  unfold VoxelGrid.SetVoxel; split <;> rfl

@[simp] theorem SetVoxel_sizeY (vg : VoxelGrid) (x y z : ℤ) (c : RGB) :
    (vg.SetVoxel x y z c).sizeY = vg.sizeY := by
  unfold VoxelGrid.SetVoxel; split <;> rfl

@[simp] theorem SetVoxel_sizeZ (vg : VoxelGrid) (x y z : ℤ) (c : RGB) :
    (vg.SetVoxel x y z c).sizeZ = vg.sizeZ := by
  unfold VoxelGrid.SetVoxel; split <;> rfl

@[simp] theorem SetVoxel_scale (vg : VoxelGrid) (x y z : ℤ) (c : RGB) :
    (vg.SetVoxel x y z c).scale = vg.scale := by
  unfold VoxelGrid.SetVoxel; split <;> rfl

@[simp] theorem SetVoxel_origin (vg : VoxelGrid) (x y z : ℤ) (c : RGB) :
    (vg.SetVoxel x y z c).origin = vg.origin := by
  unfold VoxelGrid.SetVoxel; split <;> rfl

theorem SetVoxel_lookup_of_ne (vg : VoxelGrid) (x y z : ℤ) (c : RGB) (q : Pos)
    (h : q ≠ (x, y, z)) :
    (vg.SetVoxel x y z c).voxels.lookup q = vg.voxels.lookup q := by
  unfold VoxelGrid.SetVoxel
  split
  · exact VoxMap.lookup_insert_ne _ _ _ _ h
  · rfl

theorem SetVoxel_lookup_isSome (vg : VoxelGrid) (x y z : ℤ) (c : RGB) (q : Pos) :
    (((vg.SetVoxel x y z c).voxels.lookup q).isSome) →
    q = (x, y, z) ∨ (vg.voxels.lookup q).isSome := by
  unfold VoxelGrid.SetVoxel
  split
  · exact VoxMap.lookup_insert_isSome _ _ _ _
  · exact fun h => Or.inr h

theorem SetVoxel_inBounds_get (vg : VoxelGrid) (x y z : ℤ) (c : RGB)
    (h : vg.inBounds x y z = true) :
    (vg.SetVoxel x y z c).GetVoxel x y z = some ⟨x, y, z, c⟩ := by
  unfold VoxelGrid.SetVoxel VoxelGrid.GetVoxel
  rw [if_pos h]
  exact VoxMap.lookup_insert_self _ _ _

theorem SetVoxel_out_of_bounds (vg : VoxelGrid) (x y z : ℤ) (c : RGB)
    (h : vg.inBounds x y z = false) :
    vg.SetVoxel x y z c = vg := by
  unfold VoxelGrid.SetVoxel
  rw [if_neg (by simp [h])]

/-! ## Theorems: color matcher (C1) -/

/-- Once the running best is an actual entry, the Go scan loop computes the
same fold as Mathlib's `List.argAux` for the strict order on distances. -/
theorem matchAux_eq_foldl_argAux (f : PaletteColor → ℚ) (l : List PaletteColor) :
    ∀ c : PaletteColor,
      matchAux f (some c) (f c) l
        = l.foldl (List.argAux fun b c' => f b < f c') (some c) := by
  induction l with
  | nil => intro c; rfl
  | cons hd rest ih =>
    intro c
    simp only [matchAux, List.foldl_cons, List.argAux]
    by_cases h : f hd < f c
    · simp only [if_pos h]
      exact ih hd
    · simp only [if_neg h]
      exact ih c

/-- Under the (always-true-in-practice) bound that every CIEDE2000 distance
is below `math.MaxFloat64`, the Go scan loop computes `List.argmin`. -/
theorem matchAux_eq_argmin (f : PaletteColor → ℚ) (l : List PaletteColor)
    (hb : ∀ c ∈ l, f c < maxFloat64) :
    matchAux f none maxFloat64 l = List.argmin f l := by
  cases l with
  | nil => rfl
  | cons hd rest =>
    have hhd : f hd < maxFloat64 := hb hd (List.mem_cons_self _ _)
    simp only [matchAux, if_pos hhd, List.argmin, List.foldl_cons]
    have : (List.argAux (fun b c' => f b < f c') none hd) = some hd := rfl
    rw [this, matchAux_eq_foldl_argAux]

/-- C1: For every palette and every RGB triple, `Match` converts the target to
Lab, scans the palette linearly and returns the entry with minimal distance,
breaking ties in favor of the first entry in palette insertion order
(equivalently: it computes `List.argmin` of the distance); it returns null
exactly when the palette is empty or absent; and matching a color at distance
zero from a palette entry, all other entries being at positive distance,
returns that entry.  The distance is `DeltaE` of the external go-colorful
library, modelled by the parameter `d` (with `toLab` modelling `RGBToLAB`);
the sole hypothesis is that all palette distances are below `math.MaxFloat64`,
which holds for CIEDE2000. -/
theorem Match_first_min (d : LABColor → LABColor → ℚ) (toLab : RGB → LABColor)
    (p : Palette) (rgb : RGB)
    (hb : ∀ c ∈ p.colors, d (toLab rgb) c.lab < maxFloat64) :
    CIELABMatcher.Match d toLab none rgb = none
    ∧ CIELABMatcher.Match d toLab (some p) rgb
        = List.argmin (fun c => d (toLab rgb) c.lab) p.colors
    ∧ (CIELABMatcher.Match d toLab (some p) rgb = none ↔ p.colors = [])
    ∧ (∀ r, CIELABMatcher.Match d toLab (some p) rgb = some r →
        r ∈ p.colors
        ∧ (∀ c ∈ p.colors, d (toLab rgb) r.lab ≤ d (toLab rgb) c.lab)
        ∧ (∀ c ∈ p.colors, d (toLab rgb) c.lab ≤ d (toLab rgb) r.lab →
            p.colors.indexOf r ≤ p.colors.indexOf c))
    ∧ (∀ i (h : i < p.colors.length),
        d (toLab rgb) (p.colors.get ⟨i, h⟩).lab = 0 →
        (∀ j (hj : j < p.colors.length), j ≠ i →
          0 < d (toLab rgb) (p.colors.get ⟨j, hj⟩).lab) →
        CIELABMatcher.Match d toLab (some p) rgb = some (p.colors.get ⟨i, h⟩)) := by
  have hmatch : CIELABMatcher.Match d toLab (some p) rgb
      = if p.colors.isEmpty then none
        else matchAux (fun c => d (toLab rgb) c.lab) none maxFloat64 p.colors := rfl
  have key : CIELABMatcher.Match d toLab (some p) rgb
      = List.argmin (fun c => d (toLab rgb) c.lab) p.colors := by
    cases hc : p.colors with
    | nil =>
      rw [hmatch, hc]
      rfl
    | cons hd rest =>
      rw [hmatch, hc, if_neg (by simp)]
      exact matchAux_eq_argmin _ (hd :: rest) (by rw [hc] at hb; exact hb)
  refine ⟨rfl, key, ?_, ?_, ?_⟩
  · rw [key]
    exact List.argmin_eq_none
  · intro r hr
    rw [key] at hr
    have hmem : r ∈ List.argmin (fun c => d (toLab rgb) c.lab) p.colors := hr
    refine ⟨List.argmin_mem hmem, ?_, ?_⟩
    · intro c hc
      have hgoal := List.le_of_mem_argmin hc hmem
      exact hgoal
    · intro c hc hle
      have hgoal := List.index_of_argmin hmem hc (a := c)
      exact hgoal hle
  · intro i h hzero hpos
    have hne : p.colors ≠ [] := by
      intro hnil
      rw [hnil] at h
      exact absurd h (by simp)
    have hsome : ∃ r, List.argmin (fun c => d (toLab rgb) c.lab) p.colors = some r := by
      cases harg : List.argmin (fun c => d (toLab rgb) c.lab) p.colors with
      | none => exact absurd (List.argmin_eq_none.mp harg) hne
      | some r => exact ⟨r, rfl⟩
    obtain ⟨r, hr⟩ := hsome
    have hmem : r ∈ List.argmin (fun c => d (toLab rgb) c.lab) p.colors := hr
    have hrmem : r ∈ p.colors := List.argmin_mem hmem
    obtain ⟨j, hget⟩ := List.mem_iff_get.mp hrmem
    have hle := List.le_of_mem_argmin (p.colors.get_mem i h) hmem
    by_cases hij : (j : ℕ) = i
    · rw [key, hr, ← hget]
      have hj : j = (⟨i, h⟩ : Fin p.colors.length) := Fin.ext hij
      rw [hj]
    · exfalso
      have h0 : 0 < d (toLab rgb) r.lab := by
        rw [← hget]
        exact hpos j j.isLt hij
      rw [hzero] at hle
      exact absurd hle (not_le.mpr h0)

/-- Witness for C1 at a concrete palette and target. -/
theorem Match_first_min_witness :
    (∀ c ∈ palEx.colors, dEx (toLabEx (0, 0, 0)) c.lab < maxFloat64)
    ∧ CIELABMatcher.Match dEx toLabEx (some palEx) (0, 0, 0) = some pcBlack := by
  have hb : ∀ c ∈ palEx.colors, dEx (toLabEx (0, 0, 0)) c.lab < maxFloat64 := by
    intro c hc
    simp only [palEx, List.mem_cons, List.not_mem_nil, or_false] at hc
    rcases hc with rfl | rfl
    · norm_num [dEx, toLabEx, pcBlack, maxFloat64]
    · norm_num [dEx, toLabEx, pcWhite, maxFloat64]
  refine ⟨hb, ?_⟩
  have h := (Match_first_min dEx toLabEx palEx (0, 0, 0) hb).2.1
  rw [h]
  norm_num [palEx, pcBlack, pcWhite, dEx, toLabEx, List.argmin, List.argAux]

/-! ## Theorems: grid bounds invariant (C7) -/

/-- C7: Every `VoxelGrid` operation preserves the invariant that every key of
the sparse voxel mapping lies within bounds: a fresh grid is empty, `SetVoxel`
preserves the invariant; setting a voxel at an in-bounds coordinate and then
querying that coordinate returns the exact color stored; setting at an
out-of-bounds coordinate leaves the grid unchanged (hence its count unchanged)
and raises no error. -/
theorem SetVoxel_bounds_invariant (vg : VoxelGrid) (x y z sx sy sz : ℤ) (c : RGB) :
    ((∀ p v, vg.voxels.lookup p = some v → vg.inBounds p.1 p.2.1 p.2.2 = true) →
      ∀ p v, (vg.SetVoxel x y z c).voxels.lookup p = some v →
        (vg.SetVoxel x y z c).inBounds p.1 p.2.1 p.2.2 = true)
    ∧ (∀ p, (NewVoxelGrid sx sy sz).voxels.lookup p = none)
    ∧ (vg.inBounds x y z = true →
        (vg.SetVoxel x y z c).GetVoxel x y z = some ⟨x, y, z, c⟩)
    ∧ (vg.inBounds x y z = false →
        vg.SetVoxel x y z c = vg ∧ (vg.SetVoxel x y z c).Count = vg.Count) := by
  have hsame : ∀ p : Pos, (vg.SetVoxel x y z c).inBounds p.1 p.2.1 p.2.2
      = vg.inBounds p.1 p.2.1 p.2.2 := by
    intro p
    simp [VoxelGrid.inBounds]
  refine ⟨?_, ?_, ?_, ?_⟩
  · intro hinv p v hlk
    rw [hsame]
    have hcases := SetVoxel_lookup_isSome vg x y z c p (by rw [hlk]; rfl)
    rcases hcases with hp | hs
    · subst hp
      by_cases hb : vg.inBounds x y z = true
      · exact hb
      · rw [SetVoxel_out_of_bounds vg x y z c (by simpa using hb)] at hlk
        exact hinv _ _ hlk
    · obtain ⟨v', hv'⟩ := Option.isSome_iff_exists.mp hs
      exact hinv _ _ hv'
  · intro p
    rfl
  · exact SetVoxel_inBounds_get vg x y z c
  · intro hb
    have heq := SetVoxel_out_of_bounds vg x y z c hb
    exact ⟨heq, by rw [heq]⟩

/-- Witness for C7 on a concrete 10×10×10 grid. -/
theorem SetVoxel_bounds_invariant_witness :
    (NewVoxelGrid 10 10 10).inBounds 5 5 5 = true
    ∧ ((NewVoxelGrid 10 10 10).SetVoxel 5 5 5 (255, 0, 0)).GetVoxel 5 5 5
        = some ⟨5, 5, 5, (255, 0, 0)⟩
    ∧ ((NewVoxelGrid 10 10 10).SetVoxel 5 5 5 (255, 0, 0)).inBounds 5 5 5 = true
    ∧ (NewVoxelGrid 10 10 10).inBounds 20 5 5 = false
    ∧ (NewVoxelGrid 10 10 10).SetVoxel 20 5 5 (255, 0, 0) = NewVoxelGrid 10 10 10 := by
  have hin := SetVoxel_bounds_invariant (NewVoxelGrid 10 10 10) 5 5 5 10 10 10 (255, 0, 0)
  have hout := SetVoxel_bounds_invariant (NewVoxelGrid 10 10 10) 20 5 5 10 10 10 (255, 0, 0)
  have hempty : ∀ p v, (NewVoxelGrid 10 10 10).voxels.lookup p = some v →
      (NewVoxelGrid 10 10 10).inBounds p.1 p.2.1 p.2.2 = true := by
    intro p v h
    exact absurd h (by simp [NewVoxelGrid, VoxMap.lookup])
  refine ⟨by decide, hin.2.2.1 (by decide), ?_, by decide, (hout.2.2.2 (by decide)).1⟩
  exact hin.1 hempty (5, 5, 5) ⟨5, 5, 5, (255, 0, 0)⟩ (by decide)

/-! ## Theorems: voxel-triangle intersection (C4) -/

/-- C4 (code-bug evaluation): at the concrete sliver triangle `tv0,tv1,tv2`
and the cell center `cEx`, `voxelIntersectsTriangle` reports an intersection
in both normal and conservative mode, although the Euclidean distance from
`cEx` to the triangle's plane exceeds even the conservative bound
1.5·(√3/2): squared, `(n·c − n·v0)² > (3/4)·(3/2)²·‖n‖²` where `n` is the
unnormalized normal.  The code compares `|n·c − n·v0|` against the threshold
without dividing by `‖n‖`, contradicting its own comment "Calculate distance
from voxel to triangle plane". -/
theorem voxelIntersectsTriangle_far_cell_occupied :
    voxelIntersectsTriangle cEx tv0 tv1 tv2 false = true
    ∧ voxelIntersectsTriangle cEx tv0 tv1 tv2 true = true
    ∧ (dot3 (cross3 (sub3 tv1 tv0) (sub3 tv2 tv0)) cEx
        - dot3 (cross3 (sub3 tv1 tv0) (sub3 tv2 tv0)) tv0) ^ 2
      > (3 / 4) * (3 / 2) ^ 2
        * dot3 (cross3 (sub3 tv1 tv0) (sub3 tv2 tv0))
            (cross3 (sub3 tv1 tv0) (sub3 tv2 tv0)) := by
  refine ⟨?_, ?_, ?_⟩ <;>
    norm_num [voxelIntersectsTriangle, pointInTriangle2D, sign2D, cross3, sub3, dot3,
      cEx, tv0, tv1, tv2, abs]

/-! ## Theorems: voxelizer precondition errors (C3) -/

/-- `CalculateBounds` of a mesh all of whose vertices equal `p` yields the
degenerate box `⟨p, p⟩`. -/
theorem calculateBounds_const (m : Mesh) (p : Vec3) (hne : m.vertices ≠ [])
    (hall : ∀ v ∈ m.vertices, v = p) :
    (calculateBounds m).bounds = ⟨p, p⟩ := by
  have hstep : ∀ l : List Vec3, (∀ v ∈ l, v = p) →
      l.foldl
        (fun (b : BoundingBox) (q : Vec3) =>
          ⟨⟨min b.min.x q.x, min b.min.y q.y, min b.min.z q.z⟩,
           ⟨max b.max.x q.x, max b.max.y q.y, max b.max.z q.z⟩⟩)
        ⟨p, p⟩ = ⟨p, p⟩ := by
    intro l
    induction l with
    | nil => intro _; rfl
    | cons hd tl ih =>
      intro hl
      have hhd : hd = p := hl hd (List.mem_cons_self _ _)
      subst hhd
      simp only [List.foldl_cons, min_self, max_self]
      exact ih (fun v hv => hl v (List.mem_cons_of_mem _ hv))
  cases hv : m.vertices with
  | nil => exact absurd hv hne
  | cons v rest =>
    have hvp : v = p := hall v (by rw [hv]; exact List.mem_cons_self _ _)
    subst hvp
    have hrest : ∀ q ∈ rest, q = v := fun q hq =>
      hall q (by rw [hv]; exact List.mem_cons_of_mem _ hq)
    unfold calculateBounds
    rw [hv]
    simpa using hstep rest hrest

/-- C3 (amended): `Voxelize` fails with `EmptyMeshError` ("mesh has no
vertices") exactly on meshes with no vertices; it fails with
`DegenerateMeshError` ("mesh has zero size") exactly when the *longest*
extent of the effective bounding box is zero — in particular on point meshes
(all vertices equal, bounds not precomputed) — and returns a grid in every
other case.  A merely flat mesh (zero volume but positive longest extent) is
not rejected, contrary to the claim as stated (see the counterexample). -/
theorem Voxelize_error_cases (mesh : Mesh) (config : VoxelizationConfig) :
    (Voxelize mesh config = Except.error "mesh has no vertices" ↔ mesh.vertices = [])
    ∧ (Voxelize mesh config = Except.error "mesh has zero size"
        ↔ (mesh.vertices ≠ [] ∧ maxDimOf (effectiveMesh mesh) = 0))
    ∧ ((∃ g, Voxelize mesh config = Except.ok g)
        ↔ (mesh.vertices ≠ [] ∧ maxDimOf (effectiveMesh mesh) ≠ 0))
    ∧ (mesh.bounds = ⟨zeroVec, zeroVec⟩ → mesh.vertices ≠ [] →
        (∀ v ∈ mesh.vertices, v = mesh.vertices.headD zeroVec) →
        Voxelize mesh config = Except.error "mesh has zero size") := by
  refine ⟨?_, ?_, ?_, ?_⟩
  · by_cases hv : mesh.vertices.isEmpty
    · simp [Voxelize, hv, List.isEmpty_iff.mp hv]
    · have : mesh.vertices ≠ [] := by simpa [List.isEmpty_iff] using hv
      by_cases hm : maxDimOf (effectiveMesh mesh) = 0 <;>
        simp [Voxelize, hv, hm, this]
  · by_cases hv : mesh.vertices.isEmpty
    · simp [Voxelize, hv, List.isEmpty_iff.mp hv]
    · have hne : mesh.vertices ≠ [] := by simpa [List.isEmpty_iff] using hv
      by_cases hm : maxDimOf (effectiveMesh mesh) = 0 <;>
        simp [Voxelize, hv, hm, hne]
  · by_cases hv : mesh.vertices.isEmpty
    · simp [Voxelize, hv, List.isEmpty_iff.mp hv]
    · have hne : mesh.vertices ≠ [] := by simpa [List.isEmpty_iff] using hv
      by_cases hm : maxDimOf (effectiveMesh mesh) = 0 <;>
        simp [Voxelize, hv, hm, hne]
  · intro hb hne hall
    have hveq : ¬mesh.vertices.isEmpty := by simpa [List.isEmpty_iff] using hne
    have heff : effectiveMesh mesh = calculateBounds mesh := by
      unfold effectiveMesh
      rw [if_pos]
      constructor <;> rw [hb]
    have hbounds : (calculateBounds mesh).bounds
        = ⟨mesh.vertices.headD zeroVec, mesh.vertices.headD zeroVec⟩ :=
      calculateBounds_const mesh _ hne hall
    have hmax : maxDimOf (effectiveMesh mesh) = 0 := by
      rw [heff]
      unfold maxDimOf dimsOf
      rw [hbounds]
      simp
    simp [Voxelize, hveq, hmax]

/-- C3 counterexample: the flat mesh `meshFlat` has a bounding box of zero
volume (its z-extent is 0) yet `Voxelize` succeeds, returning a 10×10×0
grid instead of failing with `DegenerateMeshError`. -/
theorem Voxelize_flat_mesh_succeeds :
    (dimsOf (effectiveMesh meshFlat)).z = 0
    ∧ maxDimOf (effectiveMesh meshFlat) ≠ 0
    ∧ Voxelize meshFlat cfg10
        = Except.ok { sizeX := 10, sizeY := 10, sizeZ := 0, voxels := [],
                      scale := 10, origin := zeroVec } := by
  have heff : effectiveMesh meshFlat = calculateBounds meshFlat := by
    unfold effectiveMesh meshFlat
    simp
  have hcb : calculateBounds meshFlat
      = { meshFlat with bounds := ⟨⟨0, 0, 0⟩, ⟨1, 1, 0⟩⟩ } := by
    unfold calculateBounds meshFlat
    norm_num [min_def, max_def]
  refine ⟨?_, ?_, ?_⟩
  · rw [heff, hcb]
    norm_num [dimsOf]
  · rw [heff, hcb]
    norm_num [maxDimOf, dimsOf, max_def]
  · have hmax : maxDimOf (effectiveMesh meshFlat) = 1 := by
      rw [heff, hcb]
      norm_num [maxDimOf, dimsOf, max_def]
    unfold Voxelize
    rw [if_neg (by norm_num [meshFlat]), if_neg (by rw [hmax]; norm_num)]
    unfold voxelizeGrid
    rw [heff, hcb]
    norm_num [dimsOf, maxDimOf, max_def, cfg10, NewVoxelGrid, meshFlat, zeroVec]
    exact ⟨by decide, by decide⟩

/-- Witness for C3 on the empty mesh and a point mesh. -/
theorem Voxelize_error_cases_witness :
    Voxelize meshEmpty cfg10 = Except.error "mesh has no vertices"
    ∧ Voxelize meshPoint cfg10 = Except.error "mesh has zero size" := by
  constructor
  · exact (Voxelize_error_cases meshEmpty cfg10).1.mpr rfl
  · exact (Voxelize_error_cases meshPoint cfg10).2.2.2 rfl
      (by simp [meshPoint]) (by intro v hv; fin_cases hv <;> rfl)

/-! ## Theorems: pipeline helper lemmas -/

/-- Folding over a `flatMap` is the nested fold. -/
theorem foldl_flatMap {α β σ : Type} (g : α → List β) (f : σ → β → σ)
    (l : List α) (init : σ) :
    (l.flatMap g).foldl f init = l.foldl (fun s a => (g a).foldl f s) init := by
  induction l generalizing init with
  | nil => rfl
  | cons hd tl ih => simp [List.flatMap_cons, List.foldl_append, ih]

/-- A fold invariant: a property holding of the start and preserved by every
step holds of the result. -/
theorem foldl_invariant {σ β : Type} (P : σ → Prop) (f : σ → β → σ) (l : List β)
    (init : σ) (hinit : P init) (hf : ∀ s b, b ∈ l → P s → P (f s b)) :
    P (l.foldl f init) := by
  induction l generalizing init with
  | nil => exact hinit
  | cons hd tl ih =>
    exact ih (f init hd) (hf init hd (List.mem_cons_self _ _) hinit)
      (fun s b hb hs => hf s b (List.mem_cons_of_mem _ hb) hs)

/-- Folding over the raster enumeration is the nested z/y/x fold. -/
theorem foldl_raster {σ : Type} (f : σ → Pos → σ) (sx sy sz : ℤ) (init : σ) :
    (rasterOrder sx sy sz).foldl f init
      = (List.range sz.toNat).foldl (fun (s : σ) (zn : ℕ) =>
          (List.range sy.toNat).foldl (fun (s : σ) (yn : ℕ) =>
            (List.range sx.toNat).foldl
              (fun (s : σ) (xn : ℕ) => f s ((xn : ℤ), (yn : ℤ), (zn : ℤ))) s)
            s) init := by
  unfold rasterOrder
  rw [foldl_flatMap]
  have hy : ∀ (zn : ℕ) (s : σ) (yn : ℕ),
      ((List.range sx.toNat).map
        (fun (xn : ℕ) => (((xn : ℤ), (yn : ℤ), (zn : ℤ)) : Pos))).foldl f s
      = (List.range sx.toNat).foldl
          (fun (s : σ) (xn : ℕ) => f s ((xn : ℤ), (yn : ℤ), (zn : ℤ))) s := by
    intro zn s yn
    rw [List.foldl_map]
  have hz : ∀ (s : σ) (zn : ℕ),
      ((List.range sy.toNat).flatMap (fun (yn : ℕ) =>
        (List.range sx.toNat).map
          (fun (xn : ℕ) => (((xn : ℤ), (yn : ℤ), (zn : ℤ)) : Pos)))).foldl f s
      = (List.range sy.toNat).foldl (fun (s : σ) (yn : ℕ) =>
          (List.range sx.toNat).foldl
            (fun (s : σ) (xn : ℕ) => f s ((xn : ℤ), (yn : ℤ), (zn : ℤ))) s) s := by
    intro s zn
    rw [foldl_flatMap]
    simp only [hy zn]
  simp only [hz]

/-- `applyDithering` is the fold of its loop body over the raster
enumeration. -/
theorem applyDithering_eq_foldl (mwd : RGB → QErr → Option PaletteColor × QErr)
    (alg : String) (vg : VoxelGrid) :
    applyDithering mwd alg vg
      = ((rasterOrder vg.sizeX vg.sizeY vg.sizeZ).foldl (ditherStep mwd alg vg)
          (freshGrid vg, zeroBuffer)).1 := by
  unfold applyDithering
  rw [foldl_raster]

/-- A membership key has a `some` lookup. -/
theorem VoxMap.lookup_isSome_of_mem (m : VoxMap) (q : Pos) (w : Voxel)
    (h : (q, w) ∈ m) : (m.lookup q).isSome := by
  induction m with
  | nil => simp at h
  | cons hd tl ih =>
    obtain ⟨a, b⟩ := hd
    by_cases ha : a = q
    · simp [VoxMap.lookup, ha]
    · simp only [VoxMap.lookup, if_neg ha]
      rcases List.mem_cons.mp h with heq | hm
      · exact absurd (congrArg Prod.fst heq).symm ha
      · exact ih hm

/-- A `some` lookup means the key is among the mapped keys. -/
theorem VoxMap.mem_keys_of_lookup_isSome (m : VoxMap) (q : Pos)
    (h : (m.lookup q).isSome) : q ∈ m.map Prod.fst := by
  induction m with
  | nil => simp [VoxMap.lookup] at h
  | cons hd tl ih =>
    obtain ⟨a, b⟩ := hd
    by_cases ha : a = q
    · simp [ha]
    · simp only [VoxMap.lookup, if_neg ha] at h
      simp [ih h]

/-- With distinct keys, an entry is what lookup finds. -/
theorem VoxMap.lookup_eq_of_mem (m : VoxMap) (q : Pos) (w : Voxel)
    (hnd : VoxMap.keysNodup m) (h : (q, w) ∈ m) : m.lookup q = some w := by
  induction m with
  | nil => simp at h
  | cons hd tl ih =>
    obtain ⟨a, b⟩ := hd
    unfold VoxMap.keysNodup at hnd
    simp only [List.map_cons, List.nodup_cons] at hnd
    rcases List.mem_cons.mp h with heq | hm
    · obtain ⟨h1, h2⟩ := Prod.mk.injEq .. ▸ heq.symm
      subst h1; subst h2
      simp [VoxMap.lookup]
    · have ha : a ≠ q := by
        intro hq
        subst hq
        exact hnd.1 (List.mem_map_of_mem Prod.fst hm)
      simp only [VoxMap.lookup, if_neg ha]
      exact ih hnd.2 hm

/-- Raster membership is exactly the in-bounds predicate. -/
theorem mem_rasterOrder (sx sy sz : ℤ) (p : Pos) :
    p ∈ rasterOrder sx sy sz
      ↔ (0 ≤ p.1 ∧ p.1 < sx ∧ 0 ≤ p.2.1 ∧ p.2.1 < sy ∧ 0 ≤ p.2.2 ∧ p.2.2 < sz) := by
  obtain ⟨px, py, pz⟩ := p
  simp only [rasterOrder, List.mem_flatMap, List.mem_map, List.mem_range]
  constructor
  · rintro ⟨zn, hzn, yn, hyn, xn, hxn, heq⟩
    rw [Prod.mk.injEq, Prod.mk.injEq] at heq
    obtain ⟨h1, h2, h3⟩ := heq
    refine ⟨?_, ?_, ?_, ?_, ?_, ?_⟩ <;> omega
  · rintro ⟨h1, h2, h3, h4, h5, h6⟩
    refine ⟨pz.toNat, by omega, py.toNat, by omega, px.toNat, by omega, ?_⟩
    rw [Prod.mk.injEq, Prod.mk.injEq]
    refine ⟨?_, ?_, ?_⟩ <;> omega

/-- The raster enumeration is strictly sorted: `z` dominant, then `y`, then
`x`, all ascending. -/
theorem rasterOrder_pairwise (sx sy sz : ℤ) :
    List.Pairwise rasterLt (rasterOrder sx sy sz) := by
  unfold rasterOrder
  rw [List.pairwise_flatMap]
  constructor
  · intro zn _
    rw [List.pairwise_flatMap]
    constructor
    · intro yn _
      refine List.Pairwise.map _ ?_ (List.pairwise_lt_range sx.toNat)
      intro a b h
      exact Or.inr ⟨rfl, Or.inr ⟨rfl, show ((a : ℤ)) < (b : ℤ) by exact_mod_cast h⟩⟩
    · refine (List.pairwise_lt_range sy.toNat).imp ?_
      intro y1 y2 h q hq r hr
      simp only [List.mem_map, List.mem_range] at hq hr
      obtain ⟨x1, _, rfl⟩ := hq
      obtain ⟨x2, _, rfl⟩ := hr
      exact Or.inr ⟨rfl, Or.inl (show ((y1 : ℤ)) < (y2 : ℤ) by exact_mod_cast h)⟩
  · refine (List.pairwise_lt_range sz.toNat).imp ?_
    intro z1 z2 h q hq r hr
    simp only [List.mem_flatMap, List.mem_map, List.mem_range] at hq hr
    obtain ⟨y1, _, x1, _, rfl⟩ := hq
    obtain ⟨y2, _, x2, _, rfl⟩ := hr
    exact Or.inl (show ((z1 : ℤ)) < (z2 : ℤ) by exact_mod_cast h)

/-! ## Theorems: dithering raster order and Floyd–Steinberg weights (C5) -/

/-- C5: Dithered color matching processes cells in the fixed raster order
(outer loop Z, then Y, then X, all ascending): `applyDithering` is the fold
of its body over `rasterOrder`, which is strictly sorted by `rasterLt`.
For the floyd-steinberg algorithm (or the empty default name),
`distributeError` adds — purely additively — exactly the four
Floyd–Steinberg shares to the forward neighbors: (x+1,y,z)×7/16,
(x−1,y+1,z)×3/16, (x,y+1,z)×5/16, (x+1,y+1,z)×1/16, leaves every other
position unchanged, and every position it changes has the same z (no
diffusion along Z). -/
theorem applyDithering_raster_and_fs
    (mwd : RGB → QErr → Option PaletteColor × QErr) (alg : String) (vg : VoxelGrid)
    (buffer : ErrBuffer) (x y z : ℤ) (e : QErr)
    (halg : alg = "floyd-steinberg" ∨ alg = "") :
    applyDithering mwd alg vg
        = ((rasterOrder vg.sizeX vg.sizeY vg.sizeZ).foldl (ditherStep mwd alg vg)
            (freshGrid vg, zeroBuffer)).1
    ∧ List.Pairwise rasterLt (rasterOrder vg.sizeX vg.sizeY vg.sizeZ)
    ∧ distributeError buffer x y z e alg (x + 1, y, z)
        = addScaled (buffer (x + 1, y, z)) e (7/16)
    ∧ distributeError buffer x y z e alg (x - 1, y + 1, z)
        = addScaled (buffer (x - 1, y + 1, z)) e (3/16)
    ∧ distributeError buffer x y z e alg (x, y + 1, z)
        = addScaled (buffer (x, y + 1, z)) e (5/16)
    ∧ distributeError buffer x y z e alg (x + 1, y + 1, z)
        = addScaled (buffer (x + 1, y + 1, z)) e (1/16)
    ∧ (∀ p : Pos, p ≠ (x + 1, y, z) → p ≠ (x - 1, y + 1, z) → p ≠ (x, y + 1, z) →
        p ≠ (x + 1, y + 1, z) → distributeError buffer x y z e alg p = buffer p)
    ∧ (∀ p : Pos, distributeError buffer x y z e alg p ≠ buffer p → p.2.2 = z) := by
  have hne1 : ((x + 1 : ℤ), y, z) ≠ ((x - 1 : ℤ), y + 1, z) := by
    intro hh; rw [Prod.mk.injEq, Prod.mk.injEq] at hh; omega
  have hne2 : ((x + 1 : ℤ), y, z) ≠ ((x : ℤ), y + 1, z) := by
    intro hh; rw [Prod.mk.injEq, Prod.mk.injEq] at hh; omega
  have hne3 : ((x + 1 : ℤ), y, z) ≠ ((x + 1 : ℤ), y + 1, z) := by
    intro hh; rw [Prod.mk.injEq, Prod.mk.injEq] at hh; omega
  have hne4 : ((x - 1 : ℤ), y + 1, z) ≠ ((x : ℤ), y + 1, z) := by
    intro hh; rw [Prod.mk.injEq, Prod.mk.injEq] at hh; omega
  have hne5 : ((x - 1 : ℤ), y + 1, z) ≠ ((x + 1 : ℤ), y + 1, z) := by
    intro hh; rw [Prod.mk.injEq, Prod.mk.injEq] at hh; omega
  have hne6 : ((x : ℤ), y + 1, z) ≠ ((x + 1 : ℤ), y + 1, z) := by
    intro hh; rw [Prod.mk.injEq, Prod.mk.injEq] at hh; omega
  have hframe : ∀ p : Pos, p ≠ (x + 1, y, z) → p ≠ (x - 1, y + 1, z) →
      p ≠ (x, y + 1, z) → p ≠ (x + 1, y + 1, z) →
      distributeError buffer x y z e alg p = buffer p := by
    intro p h1 h2 h3 h4
    unfold distributeError
    rw [if_pos halg]
    unfold addError
    simp only [if_neg h4, if_neg h3, if_neg h2, if_neg h1]
  refine ⟨applyDithering_eq_foldl mwd alg vg, rasterOrder_pairwise _ _ _, ?_, ?_, ?_, ?_,
    hframe, ?_⟩
  · unfold distributeError
    rw [if_pos halg]
    unfold addError
    simp only [Prod.mk.injEq]
    split_ifs <;> first | rfl | omega
  · unfold distributeError
    rw [if_pos halg]
    unfold addError
    simp only [Prod.mk.injEq]
    split_ifs <;> first | rfl | omega
  · unfold distributeError
    rw [if_pos halg]
    unfold addError
    simp only [Prod.mk.injEq]
    split_ifs <;> first | rfl | omega
  · unfold distributeError
    rw [if_pos halg]
    unfold addError
    simp only [Prod.mk.injEq]
    split_ifs <;> first | rfl | omega
  · intro p hp
    by_cases h1 : p = (x + 1, y, z)
    · rw [h1]
    by_cases h2 : p = (x - 1, y + 1, z)
    · rw [h2]
    by_cases h3 : p = (x, y + 1, z)
    · rw [h3]
    by_cases h4 : p = (x + 1, y + 1, z)
    · rw [h4]
    exact absurd (hframe p h1 h2 h3 h4) hp

/-- Witness for C5 at the origin with error (16,16,16). -/
theorem applyDithering_raster_and_fs_witness :
    distributeError zeroBuffer 0 0 0 (16, 16, 16) "floyd-steinberg" (1, 0, 0) = (7, 7, 7)
    ∧ distributeError zeroBuffer 0 0 0 (16, 16, 16) "floyd-steinberg" (5, 5, 5)
        = (0, 0, 0) := by
  have h := applyDithering_raster_and_fs (fun _ _ => (none, (0, 0, 0)))
    "floyd-steinberg" (NewVoxelGrid 1 1 1) zeroBuffer 0 0 0 (16, 16, 16) (Or.inl rfl)
  constructor
  · have h3 := h.2.2.1
    norm_num [addScaled, zeroBuffer] at h3
    exact h3
  · have h7 := h.2.2.2.2.2.2.1 (5, 5, 5) (by decide) (by decide) (by decide) (by decide)
    norm_num [zeroBuffer] at h7
    exact h7

/-! ## Theorems: plain-matching/dithering write characterization -/

/-- `plainWrite` keeps the grid's shape fields. -/
theorem plainWrite_fields (mf : RGB → Option PaletteColor) (vg g : VoxelGrid) (p : Pos) :
    (plainWrite mf vg g p).sizeX = g.sizeX ∧ (plainWrite mf vg g p).sizeY = g.sizeY
    ∧ (plainWrite mf vg g p).sizeZ = g.sizeZ ∧ (plainWrite mf vg g p).scale = g.scale
    ∧ (plainWrite mf vg g p).origin = g.origin := by
  unfold plainWrite
  cases vg.voxels.lookup p with
  | none => exact ⟨rfl, rfl, rfl, rfl, rfl⟩
  | some vox =>
    dsimp only
    cases mf vox.color with
    | none => exact ⟨rfl, rfl, rfl, rfl, rfl⟩
    | some m => exact ⟨by simp, by simp, by simp, by simp, by simp⟩

/-- `plainWrite` touches only its own position. -/
theorem plainWrite_lookup_ne (mf : RGB → Option PaletteColor) (vg g : VoxelGrid)
    (q p : Pos) (h : p ≠ q) :
    (plainWrite mf vg g q).voxels.lookup p = g.voxels.lookup p := by
  unfold plainWrite
  cases vg.voxels.lookup q with
  | none => rfl
  | some vox =>
    dsimp only
    cases mf vox.color with
    | none => rfl
    | some m => exact SetVoxel_lookup_of_ne g q.1 q.2.1 q.2.2 m.rgb p h

/-- `inBounds` depends only on the sizes. -/
theorem inBounds_congr (g vg : VoxelGrid) (hx : g.sizeX = vg.sizeX)
    (hy : g.sizeY = vg.sizeY) (hz : g.sizeZ = vg.sizeZ) (x y z : ℤ) :
    g.inBounds x y z = vg.inBounds x y z := by
  unfold VoxelGrid.inBounds
  rw [hx, hy, hz]

/-- What a fold of single-cell writes stores at a position: its `writeVal`
when the position is visited, the start grid's entry otherwise. -/
theorem foldl_plainWrite_lookup (mf : RGB → Option PaletteColor) (vg : VoxelGrid)
    (ps : List Pos) (g : VoxelGrid) (p : Pos)
    (hx : g.sizeX = vg.sizeX) (hy : g.sizeY = vg.sizeY) (hz : g.sizeZ = vg.sizeZ) :
    (ps.foldl (plainWrite mf vg) g).voxels.lookup p
      = match writeVal mf vg p with
        | some v => if p ∈ ps then some v else g.voxels.lookup p
        | none => g.voxels.lookup p := by
  induction ps generalizing g with
  | nil =>
    cases writeVal mf vg p <;> simp
  | cons q tl ih =>
    have hfields := plainWrite_fields mf vg g q
    have ih' := ih (plainWrite mf vg g q) (hfields.1.trans hx)
      (hfields.2.1.trans hy) (hfields.2.2.1.trans hz)
    simp only [List.foldl_cons]
    rw [ih']
    by_cases hqp : p = q
    · subst hqp
      cases hv : vg.voxels.lookup p with
      | none =>
        have hwv : writeVal mf vg p = none := by
          simp [writeVal, hv]
        have hpw : (plainWrite mf vg g p).voxels.lookup p = g.voxels.lookup p := by
          simp [plainWrite, hv]
        rw [hwv]
        dsimp only
        exact hpw
      | some vox =>
        cases hm : mf vox.color with
        | none =>
          have hwv : writeVal mf vg p = none := by
            simp [writeVal, hv, hm]
          have hpw : (plainWrite mf vg g p).voxels.lookup p = g.voxels.lookup p := by
            simp [plainWrite, hv, hm]
          rw [hwv]
          dsimp only
          exact hpw
        | some m =>
          cases hb : vg.inBounds p.1 p.2.1 p.2.2 with
          | false =>
            have hgb : g.inBounds p.1 p.2.1 p.2.2 = false := by
              rw [inBounds_congr g vg hx hy hz]; exact hb
            have hwv : writeVal mf vg p = none := by
              simp [writeVal, hv, hm, hb]
            have hpw : (plainWrite mf vg g p).voxels.lookup p = g.voxels.lookup p := by
              simp only [plainWrite, hv, hm]
              rw [SetVoxel_out_of_bounds g p.1 p.2.1 p.2.2 m.rgb hgb]
            rw [hwv]
            dsimp only
            exact hpw
          | true =>
            have hgb : g.inBounds p.1 p.2.1 p.2.2 = true := by
              rw [inBounds_congr g vg hx hy hz]; exact hb
            have hwv : writeVal mf vg p = some ⟨p.1, p.2.1, p.2.2, m.rgb⟩ := by
              simp [writeVal, hv, hm, hb]
            have hpw : (plainWrite mf vg g p).voxels.lookup p
                = some ⟨p.1, p.2.1, p.2.2, m.rgb⟩ := by
              simp only [plainWrite, hv, hm]
              have hset := SetVoxel_inBounds_get g p.1 p.2.1 p.2.2 m.rgb hgb
              unfold VoxelGrid.GetVoxel at hset
              exact hset
            rw [hwv]
            dsimp only
            by_cases hmem : p ∈ tl
            · rw [if_pos hmem, if_pos (List.mem_cons_self p tl)]
            · rw [if_neg hmem, if_pos (List.mem_cons_self p tl), hpw]
    · have hne : (plainWrite mf vg g q).voxels.lookup p = g.voxels.lookup p :=
        plainWrite_lookup_ne mf vg g q p hqp
      cases hw : writeVal mf vg p with
      | none =>
        dsimp only
        exact hne
      | some v =>
        dsimp only
        rw [hne]
        by_cases hmem : p ∈ tl
        · rw [if_pos hmem, if_pos (List.mem_cons_of_mem q hmem)]
        · rw [if_neg hmem, if_neg (by simp [List.mem_cons, hqp, hmem])]

/-- With distinct keys, `applyColorMatching` is the fold of single-cell
writes over the map's keys. -/
theorem applyColorMatching_eq_writes (mf : RGB → Option PaletteColor) (vg : VoxelGrid)
    (hnd : VoxMap.keysNodup vg.voxels) :
    applyColorMatching mf vg
      = (vg.voxels.map Prod.fst).foldl (plainWrite mf vg) (freshGrid vg) := by
  unfold applyColorMatching
  have hgen : ∀ (l : List (Pos × Voxel)) (g : VoxelGrid),
      (∀ e ∈ l, vg.voxels.lookup e.1 = some e.2) →
      l.foldl
        (fun (result : VoxelGrid) (entry : Pos × Voxel) =>
          match mf entry.2.color with
          | some m => result.SetVoxel entry.1.1 entry.1.2.1 entry.1.2.2 m.rgb
          | none => result) g
      = (l.map Prod.fst).foldl (plainWrite mf vg) g := by
    intro l
    induction l with
    | nil => intro g _; rfl
    | cons e tl ih =>
      intro g hl
      have he := hl e (List.mem_cons_self _ _)
      simp only [List.foldl_cons, List.map_cons]
      have hstep : (match mf e.2.color with
          | some m => g.SetVoxel e.1.1 e.1.2.1 e.1.2.2 m.rgb
          | none => g) = plainWrite mf vg g e.1 := by
        unfold plainWrite
        rw [he]
        dsimp only
        cases mf e.2.color with
        | none => rfl
        | some m => rfl
      rw [hstep]
      exact ih _ (fun e' he' => hl e' (List.mem_cons_of_mem _ he'))
  exact hgen vg.voxels (freshGrid vg)
    (fun e he => VoxMap.lookup_eq_of_mem _ _ _ hnd he)

/-- With an unrecognized algorithm name, one dithering step is a plain
single-cell write with zero accumulated error, and the buffer stays empty. -/
theorem ditherStep_unknown_eq (mwd : RGB → QErr → Option PaletteColor × QErr)
    (alg : String) (vg : VoxelGrid)
    (halg : ¬(alg = "floyd-steinberg" ∨ alg = ""))
    (g : VoxelGrid) (p : Pos) :
    ditherStep mwd alg vg (g, zeroBuffer) p
      = (plainWrite (fun c => (mwd c (0, 0, 0)).1) vg g p, zeroBuffer) := by
  have hp : ((p.1, p.2.1, p.2.2) : Pos) = p := rfl
  unfold ditherStep plainWrite VoxelGrid.GetVoxel
  rw [hp]
  cases hv : vg.voxels.lookup p with
  | none => rfl
  | some vox =>
    dsimp only
    have hz0 : zeroBuffer p = (0, 0, 0) := rfl
    rw [hz0]
    cases hr : (mwd vox.color (0, 0, 0)).1 with
    | none => rfl
    | some m =>
      dsimp only
      have hde : distributeError zeroBuffer p.1 p.2.1 p.2.2
          (mwd vox.color (0, 0, 0)).2 alg = zeroBuffer := by
        unfold distributeError
        rw [if_neg halg]
      rw [hde]

/-- With an unrecognized algorithm name, the dithering fold is the plain
write fold. -/
theorem foldl_ditherStep_unknown (mwd : RGB → QErr → Option PaletteColor × QErr)
    (alg : String) (vg : VoxelGrid)
    (halg : ¬(alg = "floyd-steinberg" ∨ alg = ""))
    (ps : List Pos) (g : VoxelGrid) :
    ps.foldl (ditherStep mwd alg vg) (g, zeroBuffer)
      = (ps.foldl (plainWrite (fun c => (mwd c (0, 0, 0)).1) vg) g, zeroBuffer) := by
  induction ps generalizing g with
  | nil => rfl
  | cons q tl ih =>
    simp only [List.foldl_cons]
    rw [ditherStep_unknown_eq mwd alg vg halg g q]
    exact ih _

/-- Go's `uint8` clamping is the identity on in-range channel values. -/
theorem clampUint8_cast (c : Chan) : clampUint8 ((c : ℕ) : ℚ) = c := by
  unfold clampUint8 chanOfFloat
  have h0 : ¬(((c : ℕ) : ℚ) < 0) := not_lt.mpr (Nat.cast_nonneg _)
  have hle : ((c : ℕ) : ℚ) ≤ 255 := by
    have : (c : ℕ) ≤ 255 := Nat.le_of_lt_succ c.isLt
    exact_mod_cast this
  rw [if_neg h0, if_neg (not_lt.mpr hle)]
  apply Fin.ext
  show (((c : ℕ) : ℚ)).floor.toNat % 256 = (c : ℕ)
  have hfl : (((c : ℕ) : ℚ)).floor = ((c : ℕ) : ℤ) := by
    rw [Rat.floor_def']
    simp
  rw [hfl, Int.toNat_natCast, Nat.mod_eq_of_lt c.isLt]

/-- `MatchWithDithering` at zero accumulated error matches like `Match`. -/
theorem MatchWithDithering_zero_err (d : LABColor → LABColor → ℚ)
    (toLab : RGB → LABColor) (pal : Option Palette) (rgb : RGB) :
    (CIELABMatcher.MatchWithDithering d toLab pal rgb (0, 0, 0)).1
      = CIELABMatcher.Match d toLab pal rgb := by
  unfold CIELABMatcher.MatchWithDithering
  have hadj : ((clampUint8 (((rgb.1 : ℕ) : ℚ) + ((0, 0, 0) : QErr).1),
      clampUint8 (((rgb.2.1 : ℕ) : ℚ) + ((0, 0, 0) : QErr).2.1),
      clampUint8 (((rgb.2.2 : ℕ) : ℚ) + ((0, 0, 0) : QErr).2.2)) : RGB) = rgb := by
    show ((clampUint8 (((rgb.1 : ℕ) : ℚ) + 0), clampUint8 (((rgb.2.1 : ℕ) : ℚ) + 0),
      clampUint8 (((rgb.2.2 : ℕ) : ℚ) + 0)) : RGB) = rgb
    rw [add_zero, add_zero, add_zero, clampUint8_cast, clampUint8_cast, clampUint8_cast]
  rw [hadj]
  cases hm : CIELABMatcher.Match d toLab pal rgb <;> simp [hm]

/-- `writeVal` only depends on the matcher's values. -/
theorem writeVal_congr (mf1 mf2 : RGB → Option PaletteColor)
    (h : ∀ c, mf1 c = mf2 c) (vg : VoxelGrid) (p : Pos) :
    writeVal mf1 vg p = writeVal mf2 vg p := by
  cases hv : vg.voxels.lookup p with
  | none => simp [writeVal, hv]
  | some vox => simp [writeVal, hv, h vox.color]

/-! ## Theorems: unknown dithering algorithm names (C6) -/

/-- C6 counterexample: with the unknown algorithm name "jarvis",
`distributeError` leaves the buffer untouched, while "floyd-steinberg"
deposits 7/16 of the error at (x+1,y,z); the two behaviors differ at a
concrete input, so an unknown name does not fall back to floyd-steinberg. -/
theorem distributeError_unknown_vs_fs :
    distributeError zeroBuffer 0 0 0 (16, 16, 16) "jarvis" = zeroBuffer
    ∧ distributeError zeroBuffer 0 0 0 (16, 16, 16) "floyd-steinberg" (1, 0, 0)
        = (7, 7, 7)
    ∧ distributeError zeroBuffer 0 0 0 (16, 16, 16) "jarvis" (1, 0, 0)
        ≠ distributeError zeroBuffer 0 0 0 (16, 16, 16) "floyd-steinberg" (1, 0, 0) := by
  have hjarvis : distributeError zeroBuffer 0 0 0 (16, 16, 16) "jarvis" = zeroBuffer := by
    unfold distributeError
    rw [if_neg (by simp)]
  have hfs : distributeError zeroBuffer 0 0 0 (16, 16, 16) "floyd-steinberg" (1, 0, 0)
      = (7, 7, 7) := by
    unfold distributeError
    rw [if_pos (Or.inl rfl)]
    unfold addError
    rw [if_neg (by decide), if_neg (by decide), if_neg (by decide), if_pos (by decide)]
    norm_num [addScaled, zeroBuffer]
  refine ⟨hjarvis, hfs, ?_⟩
  rw [hjarvis, hfs]
  intro hh
  have h1 : ((0 : ℚ)) = 7 := congrArg Prod.fst hh
  norm_num at h1

/-- C6 (amended): an algorithm name other than "floyd-steinberg" and "" does
not fall back to floyd-steinberg: `distributeError` then distributes nothing
at all, so the error buffer stays identically zero and dithered matching
degenerates to plain per-voxel color matching (`applyColorMatching`), cell
for cell; it still never fails. -/
theorem applyDithering_unknown_alg (d : LABColor → LABColor → ℚ)
    (toLab : RGB → LABColor) (pal : Option Palette) (alg : String) (vg : VoxelGrid)
    (halg : alg ≠ "floyd-steinberg" ∧ alg ≠ "")
    (hnd : VoxMap.keysNodup vg.voxels) :
    (∀ (buffer : ErrBuffer) (x y z : ℤ) (e : QErr),
        distributeError buffer x y z e alg = buffer)
    ∧ (∀ p : Pos,
        (applyDithering (CIELABMatcher.MatchWithDithering d toLab pal) alg vg).voxels.lookup p
          = (applyColorMatching (CIELABMatcher.Match d toLab pal) vg).voxels.lookup p) := by
  have halg' : ¬(alg = "floyd-steinberg" ∨ alg = "") := by
    rintro (h | h)
    · exact halg.1 h
    · exact halg.2 h
  constructor
  · intro buffer x y z e
    unfold distributeError
    rw [if_neg halg']
  · intro p
    rw [applyDithering_eq_foldl, foldl_ditherStep_unknown _ _ _ halg',
      applyColorMatching_eq_writes _ _ hnd]
    have hfx : (freshGrid vg).sizeX = vg.sizeX := rfl
    have hfy : (freshGrid vg).sizeY = vg.sizeY := rfl
    have hfz : (freshGrid vg).sizeZ = vg.sizeZ := rfl
    rw [foldl_plainWrite_lookup _ vg _ (freshGrid vg) p hfx hfy hfz,
      foldl_plainWrite_lookup _ vg _ (freshGrid vg) p hfx hfy hfz]
    have hcong : writeVal
        (fun c => (CIELABMatcher.MatchWithDithering d toLab pal c (0, 0, 0)).1) vg p
        = writeVal (CIELABMatcher.Match d toLab pal) vg p :=
      writeVal_congr _ _ (fun c => MatchWithDithering_zero_err d toLab pal c) vg p
    rw [hcong]
    cases hw : writeVal (CIELABMatcher.Match d toLab pal) vg p with
    | none => rfl
    | some v =>
      dsimp only
      have hparts : (vg.voxels.lookup p).isSome
          ∧ vg.inBounds p.1 p.2.1 p.2.2 = true := by
        unfold writeVal at hw
        cases hv : vg.voxels.lookup p with
        | none => rw [hv] at hw; exact Option.noConfusion hw
        | some vox =>
          rw [hv] at hw
          dsimp only at hw
          cases hm : CIELABMatcher.Match d toLab pal vox.color with
          | none => rw [hm] at hw; exact Option.noConfusion hw
          | some m =>
            rw [hm] at hw
            dsimp only at hw
            cases hb : vg.inBounds p.1 p.2.1 p.2.2 with
            | false => rw [hb] at hw; simp at hw
            | true => exact ⟨rfl, rfl⟩
      have hmem1 : p ∈ rasterOrder vg.sizeX vg.sizeY vg.sizeZ := by
        rw [mem_rasterOrder]
        have hb := hparts.2
        unfold VoxelGrid.inBounds at hb
        simp only [Bool.and_eq_true, decide_eq_true_eq] at hb
        exact ⟨hb.1.1.1.1.1, hb.1.1.1.1.2, hb.1.1.1.2, hb.1.1.2, hb.1.2, hb.2⟩
      have hmem2 : p ∈ vg.voxels.map Prod.fst :=
        VoxMap.mem_keys_of_lookup_isSome vg.voxels p hparts.1
      rw [if_pos hmem1, if_pos hmem2]

/-- Witness for C6 on the concrete grid `vgEx` with algorithm "jarvis". -/
theorem applyDithering_unknown_alg_witness :
    ("jarvis" ≠ "floyd-steinberg" ∧ "jarvis" ≠ "")
    ∧ VoxMap.keysNodup vgEx.voxels
    ∧ distributeError zeroBuffer 3 4 5 (1, 2, 3) "jarvis" = zeroBuffer
    ∧ (applyDithering (CIELABMatcher.MatchWithDithering dEx toLabEx (some palEx))
          "jarvis" vgEx).voxels.lookup (0, 0, 0)
        = (applyColorMatching (CIELABMatcher.Match dEx toLabEx (some palEx))
            vgEx).voxels.lookup (0, 0, 0) := by
  have halg : ("jarvis" : String) ≠ "floyd-steinberg" ∧ ("jarvis" : String) ≠ "" := by
    constructor <;> decide
  have hnd : VoxMap.keysNodup vgEx.voxels := by
    show (vgEx.voxels.map Prod.fst).Nodup
    decide
  have h := applyDithering_unknown_alg dEx toLabEx (some palEx) "jarvis" vgEx halg hnd
  exact ⟨halg, hnd, h.1 zeroBuffer 3 4 5 (1, 2, 3), h.2 (0, 0, 0)⟩

/-! ## Theorems: pipeline stage invariants (C10) -/

/-- C10: Both color stages return a grid with the input's SizeX/SizeY/SizeZ,
Scale and Origin, and occupy only coordinates already occupied in the input
grid — they never invent voxels at previously empty coordinates.  Stated
for every matcher implementation (the stages call the matcher through an
interface). -/
theorem pipeline_stages_shape_and_no_new_voxels
    (mf : RGB → Option PaletteColor) (mwd : RGB → QErr → Option PaletteColor × QErr)
    (alg : String) (vg : VoxelGrid) :
    ((applyColorMatching mf vg).sizeX = vg.sizeX
      ∧ (applyColorMatching mf vg).sizeY = vg.sizeY
      ∧ (applyColorMatching mf vg).sizeZ = vg.sizeZ
      ∧ (applyColorMatching mf vg).scale = vg.scale
      ∧ (applyColorMatching mf vg).origin = vg.origin)
    ∧ ((applyDithering mwd alg vg).sizeX = vg.sizeX
      ∧ (applyDithering mwd alg vg).sizeY = vg.sizeY
      ∧ (applyDithering mwd alg vg).sizeZ = vg.sizeZ
      ∧ (applyDithering mwd alg vg).scale = vg.scale
      ∧ (applyDithering mwd alg vg).origin = vg.origin)
    ∧ (∀ p : Pos, ((applyColorMatching mf vg).voxels.lookup p).isSome →
        (vg.voxels.lookup p).isSome)
    ∧ (∀ p : Pos, ((applyDithering mwd alg vg).voxels.lookup p).isSome →
        (vg.voxels.lookup p).isSome) := by
  have hacm : (applyColorMatching mf vg).sizeX = vg.sizeX
      ∧ (applyColorMatching mf vg).sizeY = vg.sizeY
      ∧ (applyColorMatching mf vg).sizeZ = vg.sizeZ
      ∧ (applyColorMatching mf vg).scale = vg.scale
      ∧ (applyColorMatching mf vg).origin = vg.origin
      ∧ (∀ p : Pos, ((applyColorMatching mf vg).voxels.lookup p).isSome →
          (vg.voxels.lookup p).isSome) := by
    unfold applyColorMatching
    refine foldl_invariant (fun g => g.sizeX = vg.sizeX ∧ g.sizeY = vg.sizeY
      ∧ g.sizeZ = vg.sizeZ ∧ g.scale = vg.scale ∧ g.origin = vg.origin
      ∧ (∀ p : Pos, (g.voxels.lookup p).isSome → (vg.voxels.lookup p).isSome))
      _ vg.voxels (freshGrid vg) ⟨rfl, rfl, rfl, rfl, rfl, ?_⟩ ?_
    · intro p h
      exact absurd h (by simp [freshGrid, NewVoxelGrid, VoxMap.lookup])
    · intro g entry hmem hP
      cases hm : mf entry.2.color with
      | none => exact hP
      | some m =>
        refine ⟨by simp [hP.1], by simp [hP.2.1], by simp [hP.2.2.1],
          by simp [hP.2.2.2.1], by simp [hP.2.2.2.2.1], ?_⟩
        intro p hp
        rcases SetVoxel_lookup_isSome g entry.1.1 entry.1.2.1 entry.1.2.2 m.rgb p hp
          with hkey | hold
        · subst hkey
          exact VoxMap.lookup_isSome_of_mem vg.voxels entry.1 entry.2
            (by simpa using hmem)
        · exact hP.2.2.2.2.2 p hold
  have hdit : (applyDithering mwd alg vg).sizeX = vg.sizeX
      ∧ (applyDithering mwd alg vg).sizeY = vg.sizeY
      ∧ (applyDithering mwd alg vg).sizeZ = vg.sizeZ
      ∧ (applyDithering mwd alg vg).scale = vg.scale
      ∧ (applyDithering mwd alg vg).origin = vg.origin
      ∧ (∀ p : Pos, ((applyDithering mwd alg vg).voxels.lookup p).isSome →
          (vg.voxels.lookup p).isSome) := by
    rw [applyDithering_eq_foldl]
    have := foldl_invariant
      (fun (s : VoxelGrid × ErrBuffer) => s.1.sizeX = vg.sizeX ∧ s.1.sizeY = vg.sizeY
        ∧ s.1.sizeZ = vg.sizeZ ∧ s.1.scale = vg.scale ∧ s.1.origin = vg.origin
        ∧ (∀ p : Pos, (s.1.voxels.lookup p).isSome → (vg.voxels.lookup p).isSome))
      (ditherStep mwd alg vg) (rasterOrder vg.sizeX vg.sizeY vg.sizeZ)
      (freshGrid vg, zeroBuffer) ⟨rfl, rfl, rfl, rfl, rfl, ?_⟩ ?_
    · exact this
    · intro p h
      exact absurd h (by simp [freshGrid, NewVoxelGrid, VoxMap.lookup])
    · intro s q hqmem hP
      unfold ditherStep VoxelGrid.GetVoxel
      cases hv : vg.voxels.lookup (q.1, q.2.1, q.2.2) with
      | none => exact hP
      | some vox =>
        dsimp only
        cases hr : (mwd vox.color (s.2 q)).1 with
        | none => exact hP
        | some m =>
          dsimp only
          refine ⟨by simp [hP.1], by simp [hP.2.1], by simp [hP.2.2.1],
            by simp [hP.2.2.2.1], by simp [hP.2.2.2.2.1], ?_⟩
          intro p hp
          rcases SetVoxel_lookup_isSome s.1 q.1 q.2.1 q.2.2 m.rgb p hp
            with hkey | hold
          · subst hkey
            rw [hv]
            rfl
          · exact hP.2.2.2.2.2 p hold
  exact ⟨⟨hacm.1, hacm.2.1, hacm.2.2.1, hacm.2.2.2.1, hacm.2.2.2.2.1⟩,
    ⟨hdit.1, hdit.2.1, hdit.2.2.1, hdit.2.2.2.1, hdit.2.2.2.2.1⟩,
    hacm.2.2.2.2.2, hdit.2.2.2.2.2⟩

/-- Witness for C10 on the concrete grid `vgEx`. -/
theorem pipeline_stages_shape_witness :
    (applyColorMatching (fun _ => some pcBlack) vgEx).sizeX = vgEx.sizeX
    ∧ (applyDithering (fun _ _ => (some pcBlack, (0, 0, 0))) "floyd-steinberg"
        vgEx).scale = vgEx.scale
    ∧ (((applyColorMatching (fun _ => some pcBlack) vgEx).voxels.lookup
          (0, 0, 0)).isSome = true)
    ∧ ((vgEx.voxels.lookup (0, 0, 0)).isSome = true) := by
  have h := pipeline_stages_shape_and_no_new_voxels (fun _ => some pcBlack)
    (fun _ _ => (some pcBlack, (0, 0, 0))) "floyd-steinberg" vgEx
  refine ⟨h.1.1, h.2.1.2.2.2.1, by decide, ?_⟩
  exact h.2.2.1 (0, 0, 0) (by decide)

/-! ## Theorems: schematic index helpers (C2) -/

/-- Division-free uniqueness of `a + m·q` decompositions with `a ∈ [0, m)`. -/
theorem add_mul_inj (m a b q1 q2 : ℤ) (ha : 0 ≤ a) (ha2 : a < m) (hb : 0 ≤ b)
    (hb2 : b < m) (h : a + m * q1 = b + m * q2) : a = b ∧ q1 = q2 := by
  have hm : 0 < m := lt_of_le_of_lt ha ha2
  have hab : a = b := by
    have h1 : (a + m * q1) % m = a := by
      rw [Int.add_mul_emod_self_left]
      exact Int.emod_eq_of_lt ha ha2
    have h2 : (b + m * q2) % m = b := by
      rw [Int.add_mul_emod_self_left]
      exact Int.emod_eq_of_lt hb hb2
    rw [← h1, h, h2]
  refine ⟨hab, ?_⟩
  rw [hab] at h
  have hq : m * q1 = m * q2 := by omega
  exact mul_left_cancel₀ (ne_of_gt hm) hq

/-- The schematic index determines the coordinates on in-bounds cells. -/
theorem schemIndex_inj (sy sz x1 y1 z1 x2 y2 z2 : ℤ)
    (hy1 : 0 ≤ y1) (hy1' : y1 < sy) (hz1 : 0 ≤ z1) (hz1' : z1 < sz)
    (hy2 : 0 ≤ y2) (hy2' : y2 < sy) (hz2 : 0 ≤ z2) (hz2' : z2 < sz)
    (h : schemIndex sy sz x1 y1 z1 = schemIndex sy sz x2 y2 z2) :
    x1 = x2 ∧ y1 = y2 ∧ z1 = z2 := by
  have h' : y1 + sy * (z1 + sz * x1) = y2 + sy * (z2 + sz * x2) := by
    unfold schemIndex at h
    linear_combination h
  obtain ⟨hy, hrest⟩ := add_mul_inj sy y1 y2 _ _ hy1 hy1' hy2 hy2' h'
  obtain ⟨hz, hx⟩ := add_mul_inj sz z1 z2 _ _ hz1 hz1' hz2 hz2' hrest
  exact ⟨hx, hy, hz⟩

/-- The schematic index of an in-bounds cell lies in `[0, sx·sy·sz)`. -/
theorem schemIndex_bounds (sx sy sz x y z : ℤ)
    (hx : 0 ≤ x) (hx' : x < sx) (hy : 0 ≤ y) (hy' : y < sy)
    (hz : 0 ≤ z) (hz' : z < sz) :
    0 ≤ schemIndex sy sz x y z ∧ schemIndex sy sz x y z < sx * sy * sz := by
  unfold schemIndex
  have hsy : 0 < sy := lt_of_le_of_lt hy hy'
  have hsz : 0 < sz := lt_of_le_of_lt hz hz'
  constructor
  · have h1 : 0 ≤ z * sy := mul_nonneg hz (le_of_lt hsy)
    have h2 : 0 ≤ x * sy * sz := mul_nonneg (mul_nonneg hx (le_of_lt hsy)) (le_of_lt hsz)
    linarith
  · have h1 : z * sy ≤ (sz - 1) * sy := mul_le_mul_of_nonneg_right (by linarith) (le_of_lt hsy)
    have h2 : x * (sy * sz) ≤ (sx - 1) * (sy * sz) :=
      mul_le_mul_of_nonneg_right (by linarith) (le_of_lt (mul_pos hsy hsz))
    nlinarith [h1, h2]

/-- `inBounds` as explicit inequalities. -/
theorem inBounds_iff (vg : VoxelGrid) (x y z : ℤ) :
    vg.inBounds x y z = true
      ↔ (0 ≤ x ∧ x < vg.sizeX ∧ 0 ≤ y ∧ y < vg.sizeY ∧ 0 ≤ z ∧ z < vg.sizeZ) := by
  unfold VoxelGrid.inBounds
  simp only [Bool.and_eq_true, decide_eq_true_eq]
  tauto

/-- A key that is not among the mapped keys looks up to nothing. -/
theorem VoxMap.lookup_eq_none_of_not_mem_keys (m : VoxMap) (q : Pos)
    (h : q ∉ m.map Prod.fst) : m.lookup q = none := by
  induction m with
  | nil => rfl
  | cons hd tl ih =>
    obtain ⟨a, b⟩ := hd
    simp only [List.map_cons, List.mem_cons] at h
    push_neg at h
    have ha : ¬(a = q) := fun hh => h.1 hh.symm
    simp only [VoxMap.lookup, if_neg ha]
    exact ih h.2

/-- `condWrite` keeps the grid's shape fields. -/
theorem condWrite_fields (cond : Pos → Bool) (c : RGB) (g : VoxelGrid) (p : Pos) :
    (condWrite cond c g p).sizeX = g.sizeX ∧ (condWrite cond c g p).sizeY = g.sizeY
    ∧ (condWrite cond c g p).sizeZ = g.sizeZ := by
  unfold condWrite
  split
  · exact ⟨by simp, by simp, by simp⟩
  · exact ⟨rfl, rfl, rfl⟩

/-- `condWrite` touches only its own position. -/
theorem condWrite_lookup_ne (cond : Pos → Bool) (c : RGB) (g : VoxelGrid)
    (q p : Pos) (h : p ≠ q) :
    (condWrite cond c g q).voxels.lookup p = g.voxels.lookup p := by
  unfold condWrite
  split
  · exact SetVoxel_lookup_of_ne g q.1 q.2.1 q.2.2 c p h
  · rfl

/-- What a fold of conditional writes stores at a position. -/
theorem foldl_condWrite_lookup (cond : Pos → Bool) (c : RGB) (vg : VoxelGrid)
    (ps : List Pos) (g : VoxelGrid) (p : Pos)
    (hx : g.sizeX = vg.sizeX) (hy : g.sizeY = vg.sizeY) (hz : g.sizeZ = vg.sizeZ) :
    (ps.foldl (condWrite cond c) g).voxels.lookup p
      = if p ∈ ps ∧ cond p = true ∧ vg.inBounds p.1 p.2.1 p.2.2 = true
        then some ⟨p.1, p.2.1, p.2.2, c⟩
        else g.voxels.lookup p := by
  induction ps generalizing g with
  | nil => simp
  | cons q tl ih =>
    have hfields := condWrite_fields cond c g q
    have ih' := ih (condWrite cond c g q) (hfields.1.trans hx)
      (hfields.2.1.trans hy) (hfields.2.2.trans hz)
    simp only [List.foldl_cons]
    rw [ih']
    by_cases hqp : p = q
    · subst hqp
      by_cases hc : cond p = true
      · by_cases hb : vg.inBounds p.1 p.2.1 p.2.2 = true
        · by_cases hmem : p ∈ tl
          · rw [if_pos ⟨hmem, hc, hb⟩, if_pos ⟨List.mem_cons_self p tl, hc, hb⟩]
          · rw [if_neg (show ¬(p ∈ tl ∧ cond p = true
                ∧ vg.inBounds p.1 p.2.1 p.2.2 = true) from fun hh => hmem hh.1),
              if_pos ⟨List.mem_cons_self p tl, hc, hb⟩]
            unfold condWrite
            rw [if_pos hc]
            have hgb : g.inBounds p.1 p.2.1 p.2.2 = true := by
              rw [inBounds_congr g vg hx hy hz]; exact hb
            have hset := SetVoxel_inBounds_get g p.1 p.2.1 p.2.2 c hgb
            unfold VoxelGrid.GetVoxel at hset
            exact hset
        · rw [if_neg (show ¬(p ∈ tl ∧ cond p = true
              ∧ vg.inBounds p.1 p.2.1 p.2.2 = true) from fun hh => hb hh.2.2),
            if_neg (show ¬(p ∈ p :: tl ∧ cond p = true
              ∧ vg.inBounds p.1 p.2.1 p.2.2 = true) from fun hh => hb hh.2.2)]
          have hgb : g.inBounds p.1 p.2.1 p.2.2 = false := by
            rw [inBounds_congr g vg hx hy hz]
            cases hbv : vg.inBounds p.1 p.2.1 p.2.2
            · rfl
            · exact absurd hbv hb
          unfold condWrite
          rw [if_pos hc, SetVoxel_out_of_bounds g p.1 p.2.1 p.2.2 c hgb]
      · rw [if_neg (show ¬(p ∈ tl ∧ cond p = true
            ∧ vg.inBounds p.1 p.2.1 p.2.2 = true) from fun hh => hc hh.2.1),
          if_neg (show ¬(p ∈ p :: tl ∧ cond p = true
            ∧ vg.inBounds p.1 p.2.1 p.2.2 = true) from fun hh => hc hh.2.1)]
        unfold condWrite
        rw [if_neg hc]
    · have hgw := condWrite_lookup_ne cond c g q p hqp
      have hmemiff : (p ∈ q :: tl) ↔ (p ∈ tl) := by
        constructor
        · intro hh
          rcases List.mem_cons.mp hh with hq | ht
          · exact absurd hq hqp
          · exact ht
        · exact List.mem_cons_of_mem q
      by_cases hcase : p ∈ tl ∧ cond p = true ∧ vg.inBounds p.1 p.2.1 p.2.2 = true
      · rw [if_pos hcase, if_pos ⟨hmemiff.mpr hcase.1, hcase.2⟩]
      · rw [if_neg hcase,
          if_neg (show ¬(p ∈ q :: tl ∧ cond p = true
            ∧ vg.inBounds p.1 p.2.1 p.2.2 = true) from
            fun hh => hcase ⟨hmemiff.mp hh.1, hh.2⟩), hgw]

/-- Folding over the importer's enumeration is the nested y/z/x fold. -/
theorem foldl_importOrder {σ : Type} (f : σ → Pos → σ) (w h l : ℤ) (init : σ) :
    (importOrder w h l).foldl f init
      = (List.range h.toNat).foldl (fun (s : σ) (yn : ℕ) =>
          (List.range l.toNat).foldl (fun (s : σ) (zn : ℕ) =>
            (List.range w.toNat).foldl
              (fun (s : σ) (xn : ℕ) => f s ((xn : ℤ), (yn : ℤ), (zn : ℤ))) s)
            s) init := by
  unfold importOrder
  rw [foldl_flatMap]
  have hz : ∀ (yn : ℕ) (s : σ) (zn : ℕ),
      ((List.range w.toNat).map
        (fun (xn : ℕ) => (((xn : ℤ), (yn : ℤ), (zn : ℤ)) : Pos))).foldl f s
      = (List.range w.toNat).foldl
          (fun (s : σ) (xn : ℕ) => f s ((xn : ℤ), (yn : ℤ), (zn : ℤ))) s := by
    intro yn s zn
    rw [List.foldl_map]
  have hy : ∀ (s : σ) (yn : ℕ),
      ((List.range l.toNat).flatMap (fun (zn : ℕ) =>
        (List.range w.toNat).map
          (fun (xn : ℕ) => (((xn : ℤ), (yn : ℤ), (zn : ℤ)) : Pos)))).foldl f s
      = (List.range l.toNat).foldl (fun (s : σ) (zn : ℕ) =>
          (List.range w.toNat).foldl
            (fun (s : σ) (xn : ℕ) => f s ((xn : ℤ), (yn : ℤ), (zn : ℤ))) s) s := by
    intro s yn
    rw [foldl_flatMap]
    simp only [hz yn]
  simp only [hy]

/-- Import-order membership is exactly the in-bounds predicate. -/
theorem mem_importOrder (w h l : ℤ) (p : Pos) :
    p ∈ importOrder w h l
      ↔ (0 ≤ p.1 ∧ p.1 < w ∧ 0 ≤ p.2.1 ∧ p.2.1 < h ∧ 0 ≤ p.2.2 ∧ p.2.2 < l) := by
  obtain ⟨px, py, pz⟩ := p
  simp only [importOrder, List.mem_flatMap, List.mem_map, List.mem_range]
  constructor
  · rintro ⟨yn, hyn, zn, hzn, xn, hxn, heq⟩
    rw [Prod.mk.injEq, Prod.mk.injEq] at heq
    obtain ⟨h1, h2, h3⟩ := heq
    refine ⟨?_, ?_, ?_, ?_, ?_, ?_⟩ <;> omega
  · rintro ⟨h1, h2, h3, h4, h5, h6⟩
    refine ⟨py.toNat, by omega, pz.toNat, by omega, px.toNat, by omega, ?_⟩
    rw [Prod.mk.injEq, Prod.mk.injEq]
    refine ⟨?_, ?_, ?_⟩ <;> omega

/-- What the export fold stores at an in-bounds cell's flat index: the value
for the voxel stored at that cell, or the incoming array's entry. -/
theorem foldl_blockData_getD (d : LABColor → LABColor → ℚ) (toLab : RGB → LABColor)
    (vg : VoxelGrid) (palette : Option Palette) (q : Pos)
    (hq : vg.inBounds q.1 q.2.1 q.2.2 = true) :
    ∀ (l : List (Pos × Voxel)) (data : List ℤ),
      data.length = (vg.sizeX * vg.sizeY * vg.sizeZ).toNat →
      (∀ e ∈ l, ((e.2.x, e.2.y, e.2.z) : Pos) = e.1
        ∧ vg.inBounds e.1.1 e.1.2.1 e.1.2.2 = true) →
      VoxMap.keysNodup l →
      (l.foldl
        (fun (data : List ℤ) (entry : Pos × Voxel) =>
          match exportCellValue d toLab palette entry.2.color with
          | some idx =>
            data.set (schemIndex vg.sizeY vg.sizeZ entry.2.x entry.2.y entry.2.z).toNat
              (idx % 256)
          | none => data) data).getD
        (schemIndex vg.sizeY vg.sizeZ q.1 q.2.1 q.2.2).toNat 0
      = match VoxMap.lookup l q with
        | some vox =>
          (match exportCellValue d toLab palette vox.color with
           | some idx => idx % 256
           | none => data.getD (schemIndex vg.sizeY vg.sizeZ q.1 q.2.1 q.2.2).toNat 0)
        | none => data.getD (schemIndex vg.sizeY vg.sizeZ q.1 q.2.1 q.2.2).toNat 0 := by
  obtain ⟨qx, qy, qz⟩ := q
  try dsimp only at hq ⊢
  rw [inBounds_iff] at hq
  try dsimp only at hq
  obtain ⟨hqx, hqx', hqy, hqy', hqz, hqz'⟩ := hq
  have hqb := schemIndex_bounds vg.sizeX vg.sizeY vg.sizeZ qx qy qz
    hqx hqx' hqy hqy' hqz hqz'
  intro l
  induction l with
  | nil =>
    intro data _ _ _
    rfl
  | cons e tl ih =>
    obtain ⟨ekey, evox⟩ := e
    obtain ⟨k1, k2, k3⟩ := ekey
    intro data hlen hl hnd
    obtain ⟨he1, he2⟩ := hl ((k1, k2, k3), evox) (List.mem_cons_self _ _)
    try dsimp only at he1 he2
    rw [Prod.mk.injEq, Prod.mk.injEq] at he1
    obtain ⟨hex, hey, hez⟩ := he1
    rw [inBounds_iff] at he2
    try dsimp only at he2
    obtain ⟨hk1, hk1', hk2, hk2', hk3, hk3'⟩ := he2
    unfold VoxMap.keysNodup at hnd
    simp only [List.map_cons, List.nodup_cons] at hnd
    have hnd' : VoxMap.keysNodup tl := hnd.2
    have hl' : ∀ e ∈ tl, ((e.2.x, e.2.y, e.2.z) : Pos) = e.1
        ∧ vg.inBounds e.1.1 e.1.2.1 e.1.2.2 = true :=
      fun e he => hl e (List.mem_cons_of_mem _ he)
    simp only [List.foldl_cons]
    try dsimp only
    cases hev : exportCellValue d toLab palette evox.color with
    | none =>
      have ihd := ih data hlen hl' hnd'
      rw [ihd]
      by_cases hkeq : ((k1, k2, k3) : Pos) = (qx, qy, qz)
      · have htl : VoxMap.lookup tl ((qx, qy, qz) : Pos) = none := by
          apply VoxMap.lookup_eq_none_of_not_mem_keys
          rw [← hkeq]
          exact hnd.1
        have hhd : VoxMap.lookup (((k1, k2, k3), evox) :: tl) ((qx, qy, qz) : Pos)
            = some evox := by
          unfold VoxMap.lookup
          rw [if_pos hkeq]
        simp only [htl, hhd, hev]
      · have hhd : VoxMap.lookup (((k1, k2, k3), evox) :: tl) ((qx, qy, qz) : Pos)
            = VoxMap.lookup tl ((qx, qy, qz) : Pos) := by
          conv_lhs => unfold VoxMap.lookup
          rw [if_neg hkeq]
        rw [hhd]
    | some idx =>
      have hlen' : (data.set (schemIndex vg.sizeY vg.sizeZ evox.x evox.y evox.z).toNat
          (idx % 256)).length = (vg.sizeX * vg.sizeY * vg.sizeZ).toNat := by
        rw [List.length_set]
        exact hlen
      have ihd := ih _ hlen' hl' hnd'
      rw [ihd]
      by_cases hkeq : ((k1, k2, k3) : Pos) = (qx, qy, qz)
      · rw [Prod.mk.injEq, Prod.mk.injEq] at hkeq
        obtain ⟨hq1, hq2, hq3⟩ := hkeq
        have htl : VoxMap.lookup tl ((qx, qy, qz) : Pos) = none := by
          apply VoxMap.lookup_eq_none_of_not_mem_keys
          rw [show ((qx, qy, qz) : Pos) = (k1, k2, k3) by
            rw [Prod.mk.injEq, Prod.mk.injEq]; exact ⟨hq1.symm, hq2.symm, hq3.symm⟩]
          exact hnd.1
        have hhd : VoxMap.lookup (((k1, k2, k3), evox) :: tl) ((qx, qy, qz) : Pos)
            = some evox := by
          unfold VoxMap.lookup
          rw [if_pos (by rw [Prod.mk.injEq, Prod.mk.injEq]; exact ⟨hq1, hq2, hq3⟩)]
        simp only [htl, hhd, hev]
        have hidx : (schemIndex vg.sizeY vg.sizeZ evox.x evox.y evox.z).toNat
            = (schemIndex vg.sizeY vg.sizeZ qx qy qz).toNat := by
          rw [hex, hey, hez, hq1, hq2, hq3]
        rw [hidx]
        have hblt : (schemIndex vg.sizeY vg.sizeZ qx qy qz).toNat < data.length := by
          rw [hlen]
          omega
        simp [List.getD, List.getElem?_set_self, hblt]
      · have hhd : VoxMap.lookup (((k1, k2, k3), evox) :: tl) ((qx, qy, qz) : Pos)
            = VoxMap.lookup tl ((qx, qy, qz) : Pos) := by
          conv_lhs => unfold VoxMap.lookup
          rw [if_neg hkeq]
        rw [hhd]
        have hidxne : (schemIndex vg.sizeY vg.sizeZ evox.x evox.y evox.z).toNat
            ≠ (schemIndex vg.sizeY vg.sizeZ qx qy qz).toNat := by
          rw [hex, hey, hez]
          intro hh
          have hkb := schemIndex_bounds vg.sizeX vg.sizeY vg.sizeZ k1 k2 k3
            hk1 hk1' hk2 hk2' hk3 hk3'
          have heq2 : schemIndex vg.sizeY vg.sizeZ k1 k2 k3
              = schemIndex vg.sizeY vg.sizeZ qx qy qz := by omega
          have hinj := schemIndex_inj vg.sizeY vg.sizeZ k1 k2 k3 qx qy qz
            hk2 hk2' hk3 hk3' hqy hqy' hqz hqz' heq2
          apply hkeq
          rw [Prod.mk.injEq, Prod.mk.injEq]
          exact hinj
        have hgd : (data.set (schemIndex vg.sizeY vg.sizeZ evox.x evox.y evox.z).toNat
            (idx % 256)).getD (schemIndex vg.sizeY vg.sizeZ qx qy qz).toNat 0
            = data.getD (schemIndex vg.sizeY vg.sizeZ qx qy qz).toNat 0 := by
          simp [List.getD, List.getElem?_set_ne hidxne]
        rw [hgd]

/-- C2: The schematic exporter writes the flat per-cell index array in
`Y + Z·height + X·height·length` order (height = sizeY, length = sizeZ): the
array has X·Y·Z cells, the cell of an in-bounds coordinate holds exactly the
exported value of the voxel stored there (0 when the cell is empty or
unmatched), and the importer reconstructs 3D coordinates from the flat array
with the same formula: its grid holds a voxel at (x,y,z) exactly when that
coordinate is in bounds and the flat array holds a positive non-air index at
the computed position.  A grid with one voxel at (0,0,0) yields a non-zero
value at flat position `0 + 0·height + 0·height·length = 0`. -/
theorem schematic_flat_index_round (d : LABColor → LABColor → ℚ)
    (toLab : RGB → LABColor) (vg : VoxelGrid) (palette : Option Palette)
    (width height length : ℤ) (blockData : List ℤ)
    (revPalette : ℤ → Option String) (x y z : ℤ)
    (hnd : VoxMap.keysNodup vg.voxels)
    (hconsist : ∀ e ∈ vg.voxels, ((e.2.x, e.2.y, e.2.z) : Pos) = e.1
      ∧ vg.inBounds e.1.1 e.1.2.1 e.1.2.2 = true)
    (hxyz : vg.inBounds x y z = true) :
    (buildBlockData d toLab vg palette).length
        = (vg.sizeX * vg.sizeY * vg.sizeZ).toNat
    ∧ ((buildBlockData d toLab vg palette).getD
          (schemIndex vg.sizeY vg.sizeZ x y z).toNat 0
        = match vg.voxels.lookup (x, y, z) with
          | some vox =>
            (match exportCellValue d toLab palette vox.color with
             | some idx => idx % 256
             | none => 0)
          | none => 0)
    ∧ (∀ px py pz : ℤ,
        (importFromBlockData width height length blockData revPalette).voxels.lookup
            (px, py, pz)
          = if (NewVoxelGrid width height length).inBounds px py pz = true
              ∧ importsCell height length blockData revPalette (px, py, pz) = true
            then some ⟨px, py, pz, (128, 128, 128)⟩ else none)
    ∧ ((buildBlockData dEx toLabEx vgEx none).getD
          (schemIndex vgEx.sizeY vgEx.sizeZ 0 0 0).toNat 0 = 1
        ∧ schemIndex vgEx.sizeY vgEx.sizeZ 0 0 0 = 0 ∧ (1 : ℤ) ≠ 0) := by
  refine ⟨?_, ?_, ?_, by decide, by decide, by decide⟩
  · unfold buildBlockData
    have hinit : (List.replicate (vg.sizeX * vg.sizeY * vg.sizeZ).toNat (0 : ℤ)).length
        = (vg.sizeX * vg.sizeY * vg.sizeZ).toNat := List.length_replicate _ _
    refine foldl_invariant
      (fun (data : List ℤ) => data.length = (vg.sizeX * vg.sizeY * vg.sizeZ).toNat)
      _ vg.voxels _ hinit ?_
    intro data entry _ hdata
    cases hev : exportCellValue d toLab palette entry.2.color with
    | none => exact hdata
    | some idx =>
      dsimp only
      rw [List.length_set]
      exact hdata
  · have hchar := foldl_blockData_getD d toLab vg palette (x, y, z) hxyz vg.voxels
      (List.replicate (vg.sizeX * vg.sizeY * vg.sizeZ).toNat 0)
      (by rw [List.length_replicate]) hconsist hnd
    try dsimp only at hchar
    unfold buildBlockData
    rw [hchar]
    rw [inBounds_iff] at hxyz
    obtain ⟨hqx, hqx', hqy, hqy', hqz, hqz'⟩ := hxyz
    have hb := schemIndex_bounds vg.sizeX vg.sizeY vg.sizeZ x y z
      hqx hqx' hqy hqy' hqz hqz'
    have hlt : (schemIndex vg.sizeY vg.sizeZ x y z).toNat
        < (vg.sizeX * vg.sizeY * vg.sizeZ).toNat := by omega
    have hrep : (List.replicate (vg.sizeX * vg.sizeY * vg.sizeZ).toNat (0 : ℤ)).getD
        (schemIndex vg.sizeY vg.sizeZ x y z).toNat 0 = 0 := by
      simp [List.getD, List.getElem?_replicate, hlt]
    rw [hrep]
  · intro px py pz
    have heq : importFromBlockData width height length blockData revPalette
        = (importOrder width height length).foldl
            (condWrite (importsCell height length blockData revPalette) (128, 128, 128))
            (NewVoxelGrid width height length) := by
      unfold importFromBlockData
      rw [foldl_importOrder]
    rw [heq, foldl_condWrite_lookup _ _ (NewVoxelGrid width height length) _
      (NewVoxelGrid width height length) (px, py, pz) rfl rfl rfl]
    have hmem : (((px, py, pz) : Pos) ∈ importOrder width height length)
        ↔ (NewVoxelGrid width height length).inBounds px py pz = true := by
      rw [mem_importOrder, inBounds_iff]
      exact Iff.rfl
    by_cases hc : importsCell height length blockData revPalette (px, py, pz) = true
    · by_cases hb : (NewVoxelGrid width height length).inBounds px py pz = true
      · rw [if_pos ⟨hmem.mpr hb, hc, hb⟩, if_pos ⟨hb, hc⟩]
      · rw [if_neg (show ¬(((px, py, pz) : Pos) ∈ importOrder width height length
            ∧ importsCell height length blockData revPalette (px, py, pz) = true
            ∧ (NewVoxelGrid width height length).inBounds px py pz = true) from
            fun hh => hb hh.2.2),
          if_neg (show ¬((NewVoxelGrid width height length).inBounds px py pz = true
            ∧ importsCell height length blockData revPalette (px, py, pz) = true) from
            fun hh => hb hh.1)]
        rfl
    · rw [if_neg (show ¬(((px, py, pz) : Pos) ∈ importOrder width height length
          ∧ importsCell height length blockData revPalette (px, py, pz) = true
          ∧ (NewVoxelGrid width height length).inBounds px py pz = true) from
          fun hh => hc hh.2.1),
        if_neg (show ¬((NewVoxelGrid width height length).inBounds px py pz = true
          ∧ importsCell height length blockData revPalette (px, py, pz) = true) from
          fun hh => hc hh.2)]
      rfl

/-- Witness for C2 on the concrete one-voxel grid and a 1×1×1 import. -/
theorem schematic_flat_index_round_witness :
    vgEx.inBounds 0 0 0 = true
    ∧ (buildBlockData dEx toLabEx vgEx none).length = 1
    ∧ (importFromBlockData 1 1 1 [1]
        (fun i => if i = 1 then some "minecraft:white_concrete" else none)).voxels.lookup
          (0, 0, 0)
        = some ⟨0, 0, 0, (128, 128, 128)⟩ := by
  have h := schematic_flat_index_round dEx toLabEx vgEx none 1 1 1 [1]
    (fun i => if i = 1 then some "minecraft:white_concrete" else none) 0 0 0
    (by unfold VoxMap.keysNodup; decide) (by decide) (by decide)
  refine ⟨by decide, h.1, ?_⟩
  rw [h.2.2.1 0 0 0]
  rw [if_pos ⟨by decide, by decide⟩]

/-- The default RGBA table has 256 four-byte entries. -/
theorem initRGBA_length : initRGBA.length = 1024 := by
  simp only [initRGBA, List.length_flatten, List.map_replicate, List.length_cons,
    List.length_nil, List.sum_replicate, smul_eq_mul]

/-- Lengths: assigning indices keeps the list length. -/
theorem assignFrom_length : ∀ (l : List RGB) (s : ℕ), (assignFrom s l).length = l.length
  | [], _ => rfl
  | _ :: rest, s => by
    simp [assignFrom, assignFrom_length rest (s + 1)]

/-- Indices assigned from `s ≥ 1` within the byte range are never 0. -/
theorem assignFrom_snd_ne_zero : ∀ (l : List RGB) (s : ℕ), 1 ≤ s → s + l.length ≤ 256 →
    ∀ e ∈ assignFrom s l, e.2 ≠ 0
  | [], _, _, _ => by
    intro e he
    simp [assignFrom] at he
  | c :: rest, s, hs, hb => by
    intro e he
    simp only [assignFrom, List.mem_cons] at he
    cases he with
    | inl h =>
      rw [h]
      intro hh
      have hv := congrArg Fin.val hh
      rw [Fin.val_natCast] at hv
      simp only [Fin.val_zero] at hv
      simp only [List.length_cons] at hb
      omega
    | inr h =>
      have hb' : s + 1 + rest.length ≤ 256 := by
        simp only [List.length_cons] at hb
        omega
      exact assignFrom_snd_ne_zero rest (s + 1) (by omega) hb' e h

/-- The Go palette loop equals: take distinct colors in first-seen order,
truncate to 255, and index consecutively from the current counter. -/
theorem buildVoxPaletteAux_spec (l : List RGB) :
    ∀ (acc : List (RGB × Fin 256)) (seen : List RGB),
      (∀ c : RGB, c ∈ seen ↔ c ∈ acc.map Prod.fst) →
      acc.length ≤ 254 →
      buildVoxPaletteAux l acc ((acc.length + 1 : ℕ) : Fin 256)
        = acc ++ assignFrom (acc.length + 1)
            ((firstSeenAux seen l).take (255 - acc.length)) := by
  induction l with
  | nil =>
    intro acc seen _ _
    simp [buildVoxPaletteAux, firstSeenAux, assignFrom]
  | cons c rest ih =>
    intro acc seen hs hlen
    simp only [buildVoxPaletteAux, firstSeenAux]
    by_cases hc : c ∈ acc.map Prod.fst
    · rw [if_pos hc, if_pos ((hs c).mpr hc)]
      exact ih acc seen hs hlen
    · have hcseen : c ∉ seen := fun hh => hc ((hs c).mp hh)
      rw [if_neg hc, if_neg hcseen]
      have hsucc : (((acc.length + 1 : ℕ) : Fin 256) + 1)
          = ((acc.length + 2 : ℕ) : Fin 256) := by
        apply Fin.ext
        rw [Fin.val_add, Fin.val_natCast, Fin.val_natCast,
          show ((1 : Fin 256) : ℕ) = 1 from rfl]
        omega
      by_cases hbreak : acc.length = 254
      · have hz : (((acc.length + 1 : ℕ) : Fin 256) + 1) = 0 := by
          rw [hsucc, hbreak]
          decide
        rw [if_pos hz, hbreak]
        norm_num [assignFrom, List.take_succ_cons]
      · have hnz : (((acc.length + 1 : ℕ) : Fin 256) + 1) ≠ 0 := by
          rw [hsucc]
          intro hh
          have hv := congrArg Fin.val hh
          rw [Fin.val_natCast] at hv
          simp only [Fin.val_zero] at hv
          omega
        rw [if_neg hnz, hsucc]
        have hlen' : (acc ++ [(c, ((acc.length + 1 : ℕ) : Fin 256))]).length ≤ 254 := by
          simp only [List.length_append, List.length_cons, List.length_nil]
          omega
        have hcast : ((acc.length + 2 : ℕ) : Fin 256)
            = (((acc ++ [(c, ((acc.length + 1 : ℕ) : Fin 256))]).length + 1 : ℕ) : Fin 256) := by
          simp only [List.length_append, List.length_cons, List.length_nil]
        rw [hcast]
        have hs' : ∀ x : RGB, x ∈ c :: seen
            ↔ x ∈ (acc ++ [(c, ((acc.length + 1 : ℕ) : Fin 256))]).map Prod.fst := by
          intro x
          rw [List.mem_cons, hs x]
          simp only [List.map_append, List.mem_append, List.map_cons, List.map_nil,
            List.mem_cons, List.not_mem_nil, or_false]
          tauto
        rw [ih (acc ++ [(c, ((acc.length + 1 : ℕ) : Fin 256))]) (c :: seen) hs' hlen']
        have h255 : 255 - acc.length = (255 - (acc.length + 1)) + 1 := by omega
        rw [h255, List.take_succ_cons]
        simp only [List.length_append, List.length_cons, List.length_nil, assignFrom,
          List.append_assoc, List.cons_append, List.nil_append]

/-- C8: The VOX exporter's 256-entry palette: scanning voxel colors assigns
distinct colors consecutive `uint8` indices in first-seen order starting at 1
(`assignFrom 1` over the first-seen-distinct colors truncated to 255), so at
most 255 colors are assigned and assignment stops when the 8-bit counter wraps;
no color is ever assigned the reserved index 0; and the RGBA chunk is always a
full 256-entry (1024-byte) table whose reserved entry 0 stays (0,0,0,255) -
export never fails on the palette, whatever the color list. -/
theorem vox_palette_first_seen (colors : List RGB) :
    buildVoxPalette colors = assignFrom 1 ((firstSeen colors).take 255)
    ∧ (buildVoxPalette colors).length = min 255 (firstSeen colors).length
    ∧ (∀ e ∈ buildVoxPalette colors, e.2 ≠ 0)
    ∧ (writeRGBAData (buildVoxPalette colors)).length = 1024
    ∧ (∀ j : ℕ, j < 4 →
        (writeRGBAData (buildVoxPalette colors)).getD j 0
          = if j = 3 then 255 else 0) := by
  have hmain : buildVoxPalette colors = assignFrom 1 ((firstSeen colors).take 255) := by
    have h := buildVoxPaletteAux_spec colors [] [] (by simp) (by simp)
    unfold buildVoxPalette firstSeen
    simpa using h
  have hne : ∀ e ∈ buildVoxPalette colors, e.2 ≠ 0 := by
    intro e he
    rw [hmain] at he
    have hb : 1 + ((firstSeen colors).take 255).length ≤ 256 := by
      have := List.length_take_le 255 (firstSeen colors)
      omega
    exact assignFrom_snd_ne_zero _ 1 (by omega) hb e he
  have hlen1024 : (writeRGBAData (buildVoxPalette colors)).length = 1024 := by
    unfold writeRGBAData
    refine foldl_invariant (fun (data : List (Fin 256)) => data.length = 1024)
      _ (buildVoxPalette colors) initRGBA initRGBA_length ?_
    intro data entry _ hdata
    simp only [List.length_set]
    exact hdata
  refine ⟨hmain, ?_, hne, hlen1024, ?_⟩
  · rw [hmain, assignFrom_length, List.length_take]
  · intro j hj
    unfold writeRGBAData
    have hstep : ∀ (data : List (Fin 256)) (entry : RGB × Fin 256),
        entry ∈ buildVoxPalette colors →
        data.getD j 0 = (if j = 3 then 255 else 0) →
        (((((data.set (entry.2.val * 4) entry.1.1).set
            (entry.2.val * 4 + 1) entry.1.2.1).set
            (entry.2.val * 4 + 2) entry.1.2.2).set
            (entry.2.val * 4 + 3) 255)).getD j 0 = (if j = 3 then 255 else 0) := by
      intro data entry hmem hdata
      have hv : 1 ≤ entry.2.val := by
        have := hne entry hmem
        have hvz : entry.2.val ≠ 0 := by
          intro hh
          exact this (Fin.ext hh)
        omega
      rw [← hdata]
      simp [List.getD, List.getElem?_set_ne (show entry.2.val * 4 + 3 ≠ j by omega),
        List.getElem?_set_ne (show entry.2.val * 4 + 2 ≠ j by omega),
        List.getElem?_set_ne (show entry.2.val * 4 + 1 ≠ j by omega),
        List.getElem?_set_ne (show entry.2.val * 4 ≠ j by omega)]
    refine foldl_invariant
      (fun (data : List (Fin 256)) => data.getD j 0 = (if j = 3 then 255 else 0))
      _ (buildVoxPalette colors) initRGBA ?_ hstep
    interval_cases j <;> rfl

/-- Witness for C8 on a concrete three-voxel color list with one repeat. -/
theorem vox_palette_first_seen_witness :
    buildVoxPalette [(10, 20, 30), (10, 20, 30), (7, 7, 7)]
      = [((10, 20, 30), 1), ((7, 7, 7), 2)]
    ∧ (writeRGBAData (buildVoxPalette [(10, 20, 30), (10, 20, 30), (7, 7, 7)])).getD 3 0
      = 255 := by
  have h := vox_palette_first_seen [(10, 20, 30), (10, 20, 30), (7, 7, 7)]
  refine ⟨?_, by simpa using h.2.2.2.2 3 (by decide)⟩
  rw [h.1]
  decide

end Poly2Block
